import Mathlib

/-!
Verification of the tracking-daemon control loop of the rca-trackhome
repository, as a shallow embedding in Lean 4.

Embedded source files:
* scripts/track_publish.py   (class Tracker: check / configure_tag /
  localize / loop / reload_devices, and the main tracking loop)
* scripts/run_tracker_daemon.py  (update_state, run_track_loop, main's
  shutdown path)
* trkpy/track.py             (DummyPozyxSerial backend model, do_positioning,
  get_anchors_config, set_anchors_manual, get_device_details,
  get_latest_error, get_network_name)
* trkpy/validate.py          (validate_tracking_config and TRACKING_SCHEMA)
* scripts/collect_save.py    (the config-upload handler that validates a
  profile before publishing it)

Python machine-level conventions used throughout the embedding:
* Python dicts are insertion-ordered association lists with unique keys;
  dict equality is extensional (same keys, same values).
* Python sets of device ids are lists with set-like add/remove.
* Exceptions are modelled with explicit error results; since Python
  mutates objects in place before an exception propagates, functions
  return the state built so far together with an optional error.
* Wall-clock reads (time.time(), time.sleep durations) are rational-number
  parameters; they never influence control flow in the embedded code.
-/

namespace Trk

/-- Python exception kinds that the embedded code can raise. -/
inductive PyErr where
  | zeroDivisionError
  | connectionRefusedError
  | jsonDecodeError
  | keyError (key : String)
  | typeError
  | valueError
  | indexError
  deriving Repr, DecidableEq

/-- Python modulo: raises ZeroDivisionError on a zero modulus. -/
def pymod (a b : Nat) : Except PyErr Nat :=
  if b = 0 then .error .zeroDivisionError else .ok (a % b)

/-- Lookup in a Python dict represented as an insertion-ordered
association list. -/
def pyDictGet [DecidableEq α] (d : List (α × β)) (k : α) : Option β :=
  (d.find? (fun p => p.1 = k)).map (fun p => p.2)

/-- Python dict item assignment: updates the value in place when the key
exists (keeping its position), otherwise appends the new pair. -/
def pyDictSet [DecidableEq α] (d : List (α × β)) (k : α) (v : β) :
    List (α × β) :=
  if d.any (fun p => p.1 = k) then
    d.map (fun p => if p.1 = k then (k, v) else p)
  else
    d ++ [(k, v)]

/-- Python dict equality: extensional equality of the key-value mappings,
independent of insertion order. -/
def pyDictEq [DecidableEq α] [DecidableEq β] (a b : List (α × β)) : Bool :=
  a.all (fun p => pyDictGet b p.1 = some p.2) &&
    b.all (fun p => pyDictGet a p.1 = some p.2)

/-- Python set add: appends the element unless already present. -/
def pySetAdd [DecidableEq α] (s : List α) (x : α) : List α :=
  if x ∈ s then s else s ++ [x]

/-- Python set remove (the callers only remove established members). -/
def pySetRemove [DecidableEq α] (s : List α) (x : α) : List α :=
  s.filter (fun y => y ≠ x)

/-- JSON values as produced by json.loads. The numeric fragment is
restricted to integers, which covers every profile document the
repository's schema accepts (coordinates and interval are integers). -/
inductive Json where
  | null
  | bool (b : Bool)
  | num (n : Int)
  | str (s : String)
  | arr (items : List Json)
  | obj (members : List (String × Json))
  deriving Repr, BEq

/-- Lookup of a key in a JSON object; any other shape has no keys.
Mirrors Python subscript access on the decoded dict. -/
def Json.get : Json → String → Option Json
  | .obj members, k => pyDictGet members k
  | _, _ => none

/-- Hexadecimal digit test, as in the regex class [0-9a-fA-F]. -/
def isHexDigit (c : Char) : Bool :=
  c.isDigit || (('a' ≤ c) && (c ≤ 'f')) || (('A' ≤ c) && (c ≤ 'F'))

/-- Matching of the anchor/tag id pattern HEX_PATTERN from
trkpy/validate.py, namely an anchored regex requiring the character 0,
then x or X, then one or more hex digits. -/
def matchesHexPattern (s : String) : Bool :=
  match s.toList with
  | '0' :: x :: rest =>
      (x = 'x' || x = 'X') && !rest.isEmpty && rest.all isHexDigit
  | _ => false

/-- Check of the per-anchor coordinate subschema: an array of exactly
three integers. -/
def anchorCoordsValid : Json → Bool
  | .arr items =>
      items.length = 3 &&
        items.all (fun j => match j with | .num _ => true | _ => false)
  | _ => false

/-- Check of the anchors subschema: an object whose every key matches the
hex pattern (additionalProperties is false, so a non-matching key is
rejected) and whose values satisfy the coordinate subschema. -/
def anchorsValid : Json → Bool
  | .obj members =>
      members.all (fun p =>
        matchesHexPattern p.1 && anchorCoordsValid p.2)
  | _ => false

/-- Check of a non-empty array of unique hex-pattern strings, the schema
shared by the tags list and each floors entry. -/
def hexListValid : Json → Bool
  | .arr items =>
      !items.isEmpty &&
        items.all (fun j =>
          match j with | .str s => matchesHexPattern s | _ => false) &&
        items.Pairwise (fun a b => (a == b) = false)
  | _ => false

/-- Check of the optional floors subschema: an object whose every value is
a non-empty unique array of hex-pattern strings. -/
def floorsValid : Json → Bool
  | .obj members => members.all (fun p => hexListValid p.2)
  | _ => false

/-- Check of the interval subschema: an integer with exclusiveMinimum 0. -/
def intervalValid : Json → Bool
  | .num n => 0 < n
  | _ => false

/-- Embedding of validate_tracking_config from trkpy/validate.py: true
when the document satisfies TRACKING_SCHEMA (the source surfaces failure
as a jsonschema.ValidationError). Properties outside the four declared
ones are unconstrained; anchors, tags and interval are required. -/
def validate_tracking_config : Json → Bool
  | .obj members =>
      (pyDictGet members "anchors").isSome &&
      (pyDictGet members "tags").isSome &&
      (pyDictGet members "interval").isSome &&
      (match pyDictGet members "anchors" with
        | some j => anchorsValid j
        | none => true) &&
      (match pyDictGet members "tags" with
        | some j => hexListValid j
        | none => true) &&
      (match pyDictGet members "interval" with
        | some j => intervalValid j
        | none => true) &&
      (match pyDictGet members "floors" with
        | some j => floorsValid j
        | none => true)
  | _ => false

/-- Device identifier: some id for a remote device, none for the local
master tag (Python None). -/
abbrev DevId := Option Nat

/-- A 3D coordinate triple in millimeters. -/
abbrev Pos := Int × Int × Int

/-- Entry of a backend device list (pypozyx DeviceCoordinates): network
id, device flag (1 for an anchor) and coordinates. -/
structure DeviceCoordinates where
  network_id : Nat
  flag : Nat
  pos : Pos
  deriving Repr, DecidableEq

/-- Device-details reply: the who-am-i identity byte and self-test mask. -/
structure DeviceDetails where
  who_am_i : Nat
  selftest : Nat
  deriving Repr, DecidableEq

/-- pypozyx status codes: POZYX_SUCCESS is 1 and POZYX_FAILURE is 0; the
source combines statuses with a bitwise and. -/
abbrev Status := Nat

def POZYX_SUCCESS : Status := 1

/-- Positioning dimension constants from PozyxConstants (2D, 2.5D, 3D). -/
inductive Dim where
  | dim2
  | dim25
  | dim3
  deriving Repr, DecidableEq

/-- The positioning-backend interface: the pypozyx methods used by the
embedded code, as pure state transformers over a backend state type. The
spec treats the backend as an injected opaque dependency; the repository
supplies DummyPozyxSerial in trkpy/track.py as its concrete model. -/
structure Backend (σ : Type) where
  doPositioning : σ → Dim → Nat → DevId → σ × Status × Pos
  addDevice : σ → DeviceCoordinates → DevId → σ × Status
  clearDevices : σ → DevId → σ × Status
  getDeviceCoordinates : σ → Nat → DevId → σ × Status × Pos
  getDeviceDetails : σ → DevId → σ × Status × DeviceDetails
  getDeviceIds : σ → Nat → DevId → σ × Status × List Nat
  getDeviceListSize : σ → DevId → σ × Status × Nat
  getErrorCode : σ → DevId → σ × Status × Nat
  getErrorMessage : Nat → String
  saveNetwork : σ → DevId → σ × Status
  setSelectionOfAnchors : σ → Nat → Nat → DevId → σ × Status
  setLed : σ → Nat → Bool → DevId → σ × Status
  setLedConfig : σ → Nat → DevId → σ × Status

/-- State of DummyPozyxSerial: tag2devices, a defaultdict mapping a
remote id to the list of device coordinates configured on it. -/
structure DummyState where
  tag2devices : List (DevId × List DeviceCoordinates)
  deriving Repr, DecidableEq

/-- Read through the defaultdict: an absent key reads as the empty list. -/
def DummyState.read (s : DummyState) (r : DevId) : List DeviceCoordinates :=
  (pyDictGet s.tag2devices r).getD []

/-- Defaultdict subscript access creates the (empty) entry when the key
is absent, as Python defaultdict getitem does. -/
def DummyState.touch (s : DummyState) (r : DevId) : DummyState :=
  if (pyDictGet s.tag2devices r).isSome then s
  else ⟨s.tag2devices ++ [(r, [])]⟩

/-- Item assignment on tag2devices. -/
def DummyState.write (s : DummyState) (r : DevId)
    (l : List DeviceCoordinates) : DummyState :=
  ⟨pyDictSet s.tag2devices r l⟩

/-- Key-presence test, the Python expression testing remote_id in
self.tag2devices (membership does not create a defaultdict entry). -/
def DummyState.hasKey (s : DummyState) (r : DevId) : Bool :=
  (pyDictGet s.tag2devices r).isSome

/-- Embedding of DummyPozyxSerial from trkpy/track.py. The setLed and
setLedConfig methods are absent from the dummy class (they belong to the
real PozyxSerial); they are modelled as successful no-ops because no
embedded claim observes their effect. -/
def dummyBackend : Backend DummyState where
  doPositioning := fun s dim _algo _r =>
    let z : Int := match dim with
      | .dim25 => 0
      | .dim3 => 300
      | .dim2 => 0
    (s, POZYX_SUCCESS, (100, 200, z))
  addDevice := fun s dc r =>
    (s.write r (s.read r ++ [dc]), POZYX_SUCCESS)
  clearDevices := fun s r => (s.write r [], POZYX_SUCCESS)
  getDeviceCoordinates := fun s nid r =>
    let p := (s.read r).foldl
      (fun acc dc => if dc.network_id = nid then dc.pos else acc)
      ((0, 0, 0) : Pos)
    (s.touch r, POZYX_SUCCESS, p)
  getDeviceDetails := fun s r =>
    (s, POZYX_SUCCESS, ⟨0x43, if s.hasKey r then 0b111111 else 0b110000⟩)
  getDeviceIds := fun s n r =>
    let ids := (s.read r).map (fun dc => dc.network_id)
    (s.touch r, POZYX_SUCCESS, (List.range n).map (fun i => ids.getD i 0))
  getDeviceListSize := fun s r => (s.touch r, POZYX_SUCCESS, (s.read r).length)
  getErrorCode := fun s _r => (s, POZYX_SUCCESS, 0xFF)
  getErrorMessage := fun code => "dummy error code " ++ toString code
  saveNetwork := fun s _r => (s, POZYX_SUCCESS)
  setSelectionOfAnchors := fun s _mode _n _r => (s, POZYX_SUCCESS)
  setLed := fun s _led _on _r => (s, POZYX_SUCCESS)
  setLedConfig := fun s _cfg _r => (s, POZYX_SUCCESS)

/-- Lowercase hexadecimal rendering of a number, zero-padded to width 4,
as the Python format 0x followed by 04x. -/
def hexPad4 (n : Nat) : String :=
  let ds := Nat.toDigits 16 n
  String.mk (List.replicate (4 - ds.length) '0' ++ ds)

/-- Embedding of get_network_name from trkpy/track.py. -/
def get_network_name (network_id : DevId) : String :=
  match network_id with
  | none => "MASTER"
  | some n => "0x" ++ hexPad4 n

/-- Embedding of do_positioning from trkpy/track.py: a non-success
status yields no fix; a 2D fix is an (x, y) pair and any other
dimension an (x, y, z) triple. -/
def do_positioning (B : Backend σ) (s : σ) (dim : Dim) (algo : Nat)
    (remote_id : DevId) : σ × Option (List Int) :=
  let (s1, status, p) := B.doPositioning s dim algo remote_id
  if status ≠ POZYX_SUCCESS then (s1, none)
  else if dim = Dim.dim2 then (s1, some [p.1, p.2.1])
  else (s1, some [p.1, p.2.1, p.2.2])

/-- The local-master case of get_latest_error (remote_id None): the
error-message suffix is always appended. -/
def get_latest_error_local (B : Backend σ) (s : σ) (operation : String) :
    σ × String :=
  let msg := operation ++ " error on tag MASTER"
  let (s1, _, code) := B.getErrorCode s none
  (s1, msg ++ ": " ++ B.getErrorMessage code)

/-- Embedding of get_latest_error from trkpy/track.py; for an unreachable
remote tag the function recurses once on the local master. -/
def get_latest_error (B : Backend σ) (s : σ) (operation : String)
    (remote_id : DevId) : σ × String :=
  match remote_id with
  | none => get_latest_error_local B s operation
  | some r =>
      let msg := operation ++ " error on tag " ++ get_network_name (some r)
      let (s1, status, code) := B.getErrorCode s (some r)
      if status = POZYX_SUCCESS then
        (s1, msg ++ ": " ++ B.getErrorMessage code)
      else
        let (s2, sub) := get_latest_error_local B s1 ""
        (s2, msg ++ " (unreachable); " ++ sub)

/-- Embedding of get_anchors_config from trkpy/track.py: read the device
list size, the device ids, then each device's coordinates, building a
Python dict from id to coordinates.

One step of the coordinate-reading loop of get_anchors_config. -/
def gacStep (B : Backend σ) (remote_id : DevId)
    (acc : σ × List (Nat × Pos)) (nid : Nat) : σ × List (Nat × Pos) :=
  let r := B.getDeviceCoordinates acc.1 nid remote_id
  (r.1, pyDictSet acc.2 nid r.2.2)

/-- Assembled get_anchors_config. -/
def get_anchors_config (B : Backend σ) (s : σ) (remote_id : DevId) :
    σ × List (Nat × Pos) :=
  let (s1, _, size) := B.getDeviceListSize s remote_id
  let (s2, _, ids) := B.getDeviceIds s1 size remote_id
  ids.foldl (gacStep B remote_id) (s2, [])

/-- Embedding of get_device_details from trkpy/track.py. -/
def get_device_details (B : Backend σ) (s : σ) (remote_id : DevId) :
    σ × Option DeviceDetails :=
  let (s1, status, d) := B.getDeviceDetails s remote_id
  if status = POZYX_SUCCESS then (s1, some d) else (s1, none)

/-- Telemetry datum published on the location topic per successful fix. -/
structure Telemetry where
  x : Int
  y : Int
  z : Int
  i : String
  t : Int
  deriving Repr, DecidableEq

/-- Localization result, the dict returned by Tracker.localize: success
with a position, or failure with an error message; both carry the
wall-clock timestamp captured before the backend call. -/
inductive LocRes where
  | ok (t : ℚ) (pos : List Int)
  | fail (t : ℚ) (err : String)
  deriving Repr, DecidableEq

/-- Truth of the success field of a localization result. -/
def LocRes.success : LocRes → Bool
  | .ok _ _ => true
  | .fail _ _ => false

/-- Observable events of a Tracker/daemon run: backend interactions and
log records, used to state the claims about call sequences. -/
inductive Event where
  | checkRun
  | tagStatus (id : DevId) (good : Bool)
  | anchorStatus (id : Nat) (good : Bool)
  | ledSet (id : DevId) (state : Bool)
  | waited (t : ℚ)
  | localized (id : DevId) (res : LocRes)
  | configureTagCalled (id : DevId)
  | clearDevicesCalled (id : DevId)
  | addDeviceCalled (id : DevId) (dc : DeviceCoordinates)
  | telemetry (id : DevId) (datum : Telemetry)
  | errorLogged (msg : String)
  | debugLogged (msg : String)
  deriving Repr, DecidableEq

/-- The pypozyx ANCHOR_SELECT_AUTO mode constant (its value is opaque to
the embedded logic). -/
def ANCHOR_SELECT_AUTO : Nat := 0

/-- Embedding of set_anchors_manual from trkpy/track.py: clear the
device list, add every anchor, select automatic anchors above four, and
optionally persist; statuses are combined with bitwise and and the call
succeeds when the combination equals POZYX_SUCCESS.

One step of the anchor-adding loop of set_anchors_manual. -/
def samStep (B : Backend σ) (remote_id : DevId)
    (acc : σ × Status × List Event) (p : Nat × Pos) :
    σ × Status × List Event :=
  let dc : DeviceCoordinates := ⟨p.1, 1, p.2⟩
  let r := B.addDevice acc.1 dc remote_id
  (r.1, acc.2.1 &&& r.2, acc.2.2 ++ [Event.addDeviceCalled remote_id dc])

/-- Assembled set_anchors_manual. -/
def set_anchors_manual (B : Backend σ) (s : σ) (anchors : List (Nat × Pos))
    (save_to_flash : Bool) (remote_id : DevId) : σ × Bool × List Event :=
  let (s1, st0) := B.clearDevices s remote_id
  let (s3, status, evs) := anchors.foldl (samStep B remote_id)
    (s1, st0, [Event.clearDevicesCalled remote_id])
  let (s4, status2) :=
    if 4 < anchors.length then
      let (s4, st) :=
        B.setSelectionOfAnchors s3 ANCHOR_SELECT_AUTO anchors.length remote_id
      (s4, status &&& st)
    else (s3, status)
  let s5 := if save_to_flash then (B.saveNetwork s4 remote_id).1 else s4
  (s5, status2 = POZYX_SUCCESS, evs)

/-- State of the Tracker class of scripts/track_publish.py: constructor
parameters, the loop counter, the device registry (tags and anchors) and
the needs-reconfiguration set. -/
structure TrackerState where
  pos_dim : Dim
  pos_algo : Nat
  check_period : Nat
  loop_cnt : Nat
  wait_time : ℚ
  tags : List DevId
  anchors : List (Nat × Pos)
  tags_to_reconfigure : List DevId
  deriving Repr, DecidableEq

/-- Embedding of Tracker.log_anchor_config: debug records describing the
read-back anchor configuration of a tag. -/
def log_anchor_config (B : Backend σ) (s : σ) (tag_id : DevId) :
    σ × List Event :=
  let g := get_anchors_config B s tag_id
  let tag_str := get_network_name tag_id
  if g.2.isEmpty then
    (g.1, [Event.debugLogged
      ("Tag " ++ tag_str ++ " has no anchors configured")])
  else
    (g.1, g.2.map (fun p =>
      Event.debugLogged ("Anchor " ++ get_network_name (some p.1) ++
        " configured on tag " ++ tag_str ++ ": " ++ toString p.2)))

/-- Embedding of Tracker.configure_tag: read the tag's current anchor
configuration; when it differs from the registry, push the registry's
anchors (logging the outcome); finally disable tag LED control. -/
def configure_tag (B : Backend σ) (s : σ) (tr : TrackerState)
    (tag_id : DevId) : σ × List Event :=
  let g := get_anchors_config B s tag_id
  let mid : σ × List Event :=
    if pyDictEq g.2 tr.anchors then (g.1, [])
    else
      let sam := set_anchors_manual B g.1 tr.anchors true tag_id
      if sam.2.1 then
        let logs := log_anchor_config B sam.1 tag_id
        (logs.1, sam.2.2 ++ logs.2)
      else
        let err := get_latest_error B sam.1 "Configuration" tag_id
        (err.1, sam.2.2 ++ [Event.errorLogged err.2])
  ((B.setLedConfig mid.1 0 tag_id).1,
    Event.configureTagCalled tag_id :: mid.2)

/-- Embedding of Tracker.check: query every tag and every anchor for its
details; a tag is GOOD iff its identity byte is 0x43 and its self-test
mask is 0b111111, otherwise it joins the reconfiguration set; anchors use
the mask 0b110000 and are only reported.

One step of the tag for-loop of Tracker.check. -/
def checkTagStep (B : Backend σ) (acc : σ × TrackerState × List Event)
    (tag_id : DevId) : σ × TrackerState × List Event :=
  let (sa, tra, evs) := acc
  let name := get_network_name tag_id
  let (sb, details) := get_device_details B sa tag_id
  let good := match details with
    | some d => (d.who_am_i == 0x43) && (d.selftest == 0b111111)
    | none => false
  if good then
    (sb, tra, evs ++ [Event.tagStatus tag_id true,
      Event.debugLogged ("TAG " ++ name ++ " STATUS GOOD")])
  else
    (sb, { tra with
        tags_to_reconfigure := pySetAdd tra.tags_to_reconfigure tag_id },
      evs ++ [Event.tagStatus tag_id false,
        Event.errorLogged ("TAG " ++ name ++ " STATUS BAD")])

/-- One step of the anchor for-loop of Tracker.check. -/
def checkAnchorStep (B : Backend σ) (acc : σ × List Event)
    (anchor_id : Nat) : σ × List Event :=
  let name := get_network_name (some anchor_id)
  let (sb, details) := get_device_details B acc.1 (some anchor_id)
  let good := match details with
    | some d => (d.who_am_i == 0x43) && (d.selftest == 0b110000)
    | none => false
  if good then
    (sb, acc.2 ++ [Event.anchorStatus anchor_id true,
      Event.debugLogged ("ANCHOR " ++ name ++ " STATUS GOOD")])
  else
    (sb, acc.2 ++ [Event.anchorStatus anchor_id false,
      Event.errorLogged ("ANCHOR " ++ name ++ " STATUS BAD")])

/-- Assembled Tracker.check. -/
def Tracker.check (B : Backend σ) (s : σ) (tr : TrackerState) :
    σ × TrackerState × List Event :=
  let (s1, tr1, evs1) := tr.tags.foldl (checkTagStep B) (s, tr, [])
  let (s2, evs2) :=
    (tr1.anchors.map Prod.fst).foldl (checkAnchorStep B) (s1, [])
  (s2, tr1, evs1 ++ evs2)

/-- Embedding of Tracker.localize: the timestamp is captured before the
positioning call; failure is translated into an error result via
get_latest_error (no exception crosses the Tracker boundary). -/
def Tracker.localize (B : Backend σ) (s : σ) (tr : TrackerState)
    (now : ℚ) (device_id : DevId) : σ × LocRes :=
  let (s1, posOpt) := do_positioning B s tr.pos_dim tr.pos_algo device_id
  match posOpt with
  | some pos => (s1, .ok now pos)
  | none =>
      let (s2, msg) := get_latest_error B s1 "Positioning" device_id
      (s2, .fail now msg)

/-- The guard of the periodic check in Tracker.loop: the Python
conjunction of check_period (as truthiness) and the counter-modulo test;
the short-circuit makes the modulo unreachable when the period is zero. -/
def loopCheckGuard (check_period loop_cnt : Nat) : Except PyErr Bool :=
  if check_period = 0 then .ok false
  else
    match pymod loop_cnt check_period with
    | .error e => .error e
    | .ok m => .ok (m == 0)

/-- The first for-loop of Tracker.loop: poll every registered tag
serially (LED on, settle wait, localize, LED off), building the
responses dict. -/
def pollTags (B : Backend σ) (tr : TrackerState) (now : ℚ) :
    List DevId → σ → List (DevId × LocRes) → List Event →
    σ × List (DevId × LocRes) × List Event
  | [], s, responses, evs => (s, responses, evs)
  | tag_id :: rest, s, responses, evs =>
      let (s1, _) := B.setLed s 1 true tag_id
      let (s2, res) := Tracker.localize B s1 tr now tag_id
      let (s3, _) := B.setLed s2 1 false tag_id
      pollTags B tr now rest s3 (pyDictSet responses tag_id res)
        (evs ++ [Event.ledSet tag_id true, Event.waited tr.wait_time,
          Event.localized tag_id res, Event.ledSet tag_id false])

/-- The second for-loop of Tracker.loop over the responses dict: a
successful fix of a tag queued for reconfiguration triggers
configure_tag and removes the tag from the set; a successful fix of a
healthy tag is published as telemetry; a failure queues the tag and logs
the error. Building the telemetry datum indexes position component 2,
which raises IndexError on a two-component (2D) fix; as in Python, the
mutations already performed survive the propagating exception. -/
def processRes (B : Backend σ) :
    List (DevId × LocRes) → σ → TrackerState → List Event →
    σ × TrackerState × List Event × Option PyErr
  | [], s, tr, evs => (s, tr, evs, none)
  | (tag_id, res) :: rest, s, tr, evs =>
      match res with
      | .ok t pos =>
          if tag_id ∈ tr.tags_to_reconfigure then
            let (s1, cevs) := configure_tag B s tr tag_id
            processRes B rest s1
              { tr with tags_to_reconfigure :=
                  pySetRemove tr.tags_to_reconfigure tag_id }
              (evs ++ cevs)
          else
            match pos with
            | x :: y :: z :: _ =>
                let datum : Telemetry :=
                  ⟨x, y, z, get_network_name tag_id, Rat.floor (t * 1000)⟩
                processRes B rest s tr (evs ++ [Event.telemetry tag_id datum])
            | _ => (s, tr, evs, some .indexError)
      | .fail _ msg =>
          processRes B rest s
            { tr with tags_to_reconfigure :=
                pySetAdd tr.tags_to_reconfigure tag_id }
            (evs ++ [Event.errorLogged msg])

/-- Result of one Tracker.loop call: final backend and tracker states,
the event trace produced so far, and the uncaught exception if one was
raised. -/
structure LoopResult (σ : Type) where
  backend : σ
  tracker : TrackerState
  events : List Event
  err : Option PyErr
  deriving Repr

/-- Embedding of Tracker.loop from scripts/track_publish.py: optionally
run the periodic check, increment the loop counter, return early in
check-only mode, otherwise poll all tags serially and process the
responses. The parameter now stands for the wall-clock reads; it never
influences control flow. -/
def Tracker.loop (B : Backend σ) (s : σ) (tr : TrackerState) (now : ℚ)
    (check_only : Bool) : LoopResult σ :=
  match loopCheckGuard tr.check_period tr.loop_cnt with
  | .error e => ⟨s, tr, [], some e⟩
  | .ok runCheck =>
      let (s1, tr1, evs1) :=
        if runCheck then
          let (sa, tra, evs) := Tracker.check B s tr
          (sa, tra, Event.checkRun :: evs)
        else (s, tr, [])
      let tr2 := { tr1 with loop_cnt := tr1.loop_cnt + 1 }
      if check_only then ⟨s1, tr2, evs1, none⟩
      else
        let (s2, responses, evs2) := pollTags B tr2 now tr2.tags s1 [] []
        let (s3, tr3, evs3, err) := processRes B responses s2 tr2 (evs1 ++ evs2)
        ⟨s3, tr3, evs3, err⟩

/-- Embedding of Tracker.has_tag_errors: true iff the reconfiguration
set is non-empty. -/
def Tracker.has_tag_errors (tr : TrackerState) : Bool :=
  !tr.tags_to_reconfigure.isEmpty

/-- Value of a hexadecimal digit character. -/
def hexDigitVal (c : Char) : Nat :=
  if c.isDigit then c.toNat - 48
  else if 'a' ≤ c && c ≤ 'f' then c.toNat - 87
  else if 'A' ≤ c && c ≤ 'F' then c.toNat - 55
  else 0

/-- Python int(s, 16): an optional 0x or 0X leader followed by at least
one hex digit (signs and underscores, which the repository's ids never
use, are not modelled); anything else raises ValueError (none here). -/
def pyIntBase16 (s : String) : Option Nat :=
  let cs := s.toList
  let ds := match cs with
    | '0' :: x :: rest => if x = 'x' || x = 'X' then rest else cs
    | _ => cs
  if ds.isEmpty || !ds.all isHexDigit then none
  else some (ds.foldl (fun acc c => 16 * acc + hexDigitVal c) 0)

/-- One element of the tags list in reload_devices: None stays the local
master; a string is parsed as a base-16 int (ValueError on garbage); any
other shape raises TypeError inside the int call. -/
def parseTagId : Json → Except PyErr DevId
  | .null => .ok none
  | .str s =>
      match pyIntBase16 s with
      | some n => .ok (some n)
      | none => .error .valueError
  | _ => .error .typeError

/-- The tag-set comprehension of reload_devices; the Python set
construction deduplicates (modelled in insertion order). -/
def parseTags : Json → Except PyErr (List DevId)
  | .arr items =>
      items.foldlM
        (fun acc j => do
          let d ← parseTagId j
          Except.ok (pySetAdd acc d))
        ([] : List DevId)
  | _ => .error .typeError

/-- One anchors entry of reload_devices: hex-parse the key and read the
coordinate array. The source stores tuple(xyz) unchecked and a non-triple
only fails later inside Coordinates in configure_tag; since every reload
immediately configures every tag, the failure is modelled at parse time. -/
def parseAnchorEntry (p : String × Json) : Except PyErr (Nat × Pos) := do
  let key ← match pyIntBase16 p.1 with
    | some n => Except.ok n
    | none => Except.error PyErr.valueError
  match p.2 with
  | .arr [.num x, .num y, .num z] => Except.ok (key, (x, y, z))
  | _ => Except.error PyErr.typeError

/-- The anchors-dict comprehension of reload_devices. -/
def parseAnchors : Json → Except PyErr (List (Nat × Pos))
  | .obj members =>
      members.foldlM
        (fun acc p => do
          let kv ← parseAnchorEntry p
          Except.ok (pyDictSet acc kv.1 kv.2))
        ([] : List (Nat × Pos))
  | _ => .error .typeError

/-- Result of reload_devices (or of the Tracker constructor): states and
trace built so far, plus the uncaught exception if one was raised. -/
structure ReloadResult (σ : Type) where
  backend : σ
  tracker : TrackerState
  events : List Event
  err : Option PyErr
  deriving Repr

/-- The for-loop of reload_devices configuring every tag in turn. -/
def configureAll (B : Backend σ) (tr : TrackerState) :
    List DevId → σ → List Event → σ × List Event
  | [], s, evs => (s, evs)
  | t :: rest, s, evs =>
      let (s1, cevs) := configure_tag B s tr t
      configureAll B tr rest s1 (evs ++ cevs)

/-- Embedding of Tracker.reload_devices from scripts/track_publish.py:
replace the tag set and the anchors dict from the document, run
configure_tag on every tag, then clear the needs-reconfiguration set. A
failure in either comprehension leaves the not-yet-assigned fields
unchanged, exactly as the Python assignment order does. -/
def reload_devices (B : Backend σ) (s : σ) (tr : TrackerState)
    (devices : Json) : ReloadResult σ :=
  match devices.get "tags" with
  | none => ⟨s, tr, [], some (.keyError "tags")⟩
  | some jt =>
    match parseTags jt with
    | .error e => ⟨s, tr, [], some e⟩
    | .ok tags =>
      let tr1 := { tr with tags := tags }
      match devices.get "anchors" with
      | none => ⟨s, tr1, [], some (.keyError "anchors")⟩
      | some ja =>
        match parseAnchors ja with
        | .error e => ⟨s, tr1, [], some e⟩
        | .ok anchors =>
          let tr2 := { tr1 with anchors := anchors }
          let (s1, evs) := configureAll B tr2 tr2.tags s []
          ⟨s1, { tr2 with tags_to_reconfigure := [] }, evs, none⟩

/-- Embedding of the Tracker constructor: initialise the fields (empty
registry, zero counter, empty reconfiguration set) and run
reload_devices on the given device document. -/
def Tracker.init (B : Backend σ) (s : σ) (pos_dim : Dim) (pos_algo : Nat)
    (check_period : Nat) (wait_time : ℚ) (devices : Json) : ReloadResult σ :=
  reload_devices B s
    ⟨pos_dim, pos_algo, check_period, 0, wait_time, [], [], []⟩ devices

/-- The opening-brace character. -/
def braceOpen : Char := Char.ofNat 123

/-- The closing-brace character. -/
def braceClose : Char := Char.ofNat 125

/-- Whitespace skipping of the JSON lexer. -/
def skipWs : List Char → List Char
  | c :: rest =>
      if c = ' ' || c = '\t' || c = '\n' || c = '\r' then skipWs rest
      else c :: rest
  | [] => []

/-- Decimal digits to a number. -/
def digitsToNat (ds : List Char) : Nat :=
  ds.foldl (fun a c => 10 * a + (c.toNat - 48)) 0

/-- Split a leading run of decimal digits. -/
def takeDigits : List Char → List Char × List Char
  | c :: rest =>
      if c.isDigit then
        let (d, r) := takeDigits rest
        (c :: d, r)
      else ([], c :: rest)
  | [] => ([], [])

/-- Body of a JSON string literal after its opening quote; escape
sequences, which no profile document in the repository uses, are not
modelled (they make the parse fail). -/
def parseStringBody : List Char → Option (String × List Char)
  | [] => none
  | c :: rest =>
      if c = '"' then some ("", rest)
      else if c = '\\' then none
      else
        match parseStringBody rest with
        | some (s, r) => some (String.mk (c :: s.toList), r)
        | none => none

mutual

/-- Recursive-descent JSON value parser (fuel-indexed; the integer-only
numeric fragment covers every profile document at issue). -/
def parseValue : Nat → List Char → Option (Json × List Char)
  | 0, _ => none
  | Nat.succ fuel, cs0 =>
      match skipWs cs0 with
      | [] => none
      | c :: rest =>
          if c = braceOpen then parseObjBody fuel rest []
          else if c = '[' then parseArrBody fuel rest []
          else if c = '"' then
            match parseStringBody rest with
            | some (s, r) => some (.str s, r)
            | none => none
          else if c = '-' then
            match takeDigits rest with
            | ([], _) => none
            | (ds, r) => some (.num (-(digitsToNat ds : Int)), r)
          else if c.isDigit then
            match takeDigits (c :: rest) with
            | (ds, r) => some (.num (digitsToNat ds), r)
          else if (c :: rest).take 4 = "true".toList then
            some (.bool true, (c :: rest).drop 4)
          else if (c :: rest).take 5 = "false".toList then
            some (.bool false, (c :: rest).drop 5)
          else if (c :: rest).take 4 = "null".toList then
            some (.null, (c :: rest).drop 4)
          else none

/-- Array members after the opening bracket. -/
def parseArrBody : Nat → List Char → List Json → Option (Json × List Char)
  | 0, _, _ => none
  | Nat.succ fuel, cs, acc =>
      match skipWs cs with
      | [] => none
      | c :: rest =>
          if c = ']' && acc.isEmpty then some (.arr [], rest)
          else
            match parseValue fuel (c :: rest) with
            | none => none
            | some (v, r) =>
                match skipWs r with
                | ',' :: r2 => parseArrBody fuel r2 (acc ++ [v])
                | ']' :: r2 => some (.arr (acc ++ [v]), r2)
                | _ => none

/-- Object members after the opening brace; duplicate keys overwrite as
in a Python dict. -/
def parseObjBody : Nat → List Char → List (String × Json) →
    Option (Json × List Char)
  | 0, _, _ => none
  | Nat.succ fuel, cs, acc =>
      match skipWs cs with
      | [] => none
      | c :: rest =>
          if c = braceClose && acc.isEmpty then some (.obj [], rest)
          else if c = '"' then
            match parseStringBody rest with
            | none => none
            | some (k, r) =>
                match skipWs r with
                | ':' :: r2 =>
                    match parseValue fuel r2 with
                    | none => none
                    | some (v, r3) =>
                        match skipWs r3 with
                        | ',' :: r4 => parseObjBody fuel r4 (pyDictSet acc k v)
                        | cb :: r4 =>
                            if cb = braceClose then
                              some (.obj (pyDictSet acc k v), r4)
                            else none
                        | [] => none
                | _ => none
          else none

end

/-- Embedding of json.loads restricted to the fragment above: the whole
input must be one JSON value with nothing but whitespace around it; a
parse failure is Python's json.JSONDecodeError. -/
def jsonLoads (s : String) : Option Json :=
  match parseValue (s.length + 1) s.toList with
  | some (j, rest) => if (skipWs rest).isEmpty then some j else none
  | none => none

/-- The shared daemon state dict of scripts/run_tracker_daemon.py:
on, run and the pending-config document. -/
structure DaemonState where
  «on» : Bool
  run : Bool
  conf : Option String
  deriving Repr, DecidableEq

/-- Messages sent on the out channel to the Hardware I/O process. -/
inductive OutMsg where
  | led (name : String) (state : Bool)
  | poweroffMsg
  | listeningMsg
  deriving Repr, DecidableEq

/-- Embedding of update_state from scripts/run_tracker_daemon.py. The
command mutates the shared state dict in place; afterwards a fresh
client connection on the out channel signals the change (plus a second
POWEROFF message for that command). The listening parameter says whether
the Hardware I/O process currently listens on the out channel; when it
does not, the connection attempt raises ConnectionRefusedError, which
nothing in update_state catches: the already-performed state mutation
survives and the exception propagates to the caller. An empty command
raises IndexError on the subscript before any mutation. -/
def update_state (cmd : String) (st : DaemonState) (listening : Bool) :
    DaemonState × Except PyErr (List OutMsg) :=
  match cmd.toList with
  | [] => (st, .error .indexError)
  | c0 :: _ =>
      let st1 :=
        if c0 = braceOpen then { st with conf := some cmd }
        else if cmd = "START" then { st with run := true }
        else if cmd = "STOP" then { st with run := false }
        else if cmd = "TOGGLE" then { st with run := !st.run }
        else if cmd = "POWEROFF" then { st with run := false, «on» := false }
        else st
      if listening then
        (st1, .ok ([OutMsg.led "O1" (!st1.run)] ++
          (if cmd = "POWEROFF" then [OutMsg.poweroffMsg] else [])))
      else (st1, .error .connectionRefusedError)

/-- Python truthiness of the pending-config field: None and the empty
string are falsy. -/
def confTruthy : Option String → Option String
  | some c => if c = "" then none else some c
  | none => none

/-- Merge of a concurrent pending-config write into the iteration's
final state: the field keeps its snapshot value unless another thread
wrote it meanwhile. -/
def applyMid (st : DaemonState) (w : Option String) : DaemonState :=
  match w with
  | some c => { st with conf := some c }
  | none => st

/-- Result of one iteration of run_track_loop: the states and loop-local
variables after the iteration, the event trace and out-channel sends it
produced, the duration passed to time.sleep (none when the iteration
never reached the sleep), whether the positioning pass ran, and the
uncaught exception if one was raised. -/
structure IterResult (σ : Type) where
  backend : σ
  tracker : TrackerState
  state : DaemonState
  period : ℚ
  counter : Nat
  events : List Event
  sends : List OutMsg
  sleep : Option ℚ
  ranPositioning : Bool
  err : Option PyErr
  deriving Repr

/-- Embedding of one iteration of run_track_loop from
scripts/run_tracker_daemon.py, entered with the loop guard state.on
true. The iteration reads the shared state once at its top. pos_period
and counter are the loop-local variables, log_period comes from the
configuration, listening says whether the Hardware I/O listener is
present (a missing listener makes the fresh client connection raise
ConnectionRefusedError, which nothing here catches), now and elapsed
are the wall-clock reads, and midConfWrite is the value another thread
writes into the pending-config field while the positioning pass runs
(none when no write happens). The source assigns the interval field of
the decoded document to pos_period without a type check; a non-integer
interval, which would only explode at the next sleep subtraction, is
modelled as an immediate TypeError. -/
def runTrackIter (B : Backend σ) (s : σ) (tr : TrackerState)
    (st : DaemonState) (pos_period : ℚ) (counter : Nat) (log_period : Nat)
    (listening : Bool) (now elapsed : ℚ) (midConfWrite : Option String) :
    IterResult σ :=
  match pymod counter log_period with
  | .error e => ⟨s, tr, st, pos_period, counter, [], [], none, false, some e⟩
  | .ok m =>
      let evs0 := if m = 0 then [Event.debugLogged "Running."] else []
      let counter1 := counter + 1
      match confTruthy st.conf with
      | some c =>
          match jsonLoads c with
          | none => ⟨s, tr, st, pos_period, counter1, evs0, [], none, false,
              some .jsonDecodeError⟩
          | some j =>
              match j.get "interval" with
              | none => ⟨s, tr, st, pos_period, counter1, evs0, [], none,
                  false, some (.keyError "interval")⟩
              | some (.num i) =>
                  let r := reload_devices B s tr j
                  match r.err with
                  | some e => ⟨r.backend, r.tracker, st, (i : ℚ), counter1,
                      evs0 ++ r.events, [], none, false, some e⟩
                  | none => ⟨r.backend, r.tracker, { st with conf := none },
                      (i : ℚ), counter1, evs0 ++ r.events, [], none, false,
                      none⟩
              | some _ => ⟨s, tr, st, pos_period, counter1, evs0, [], none,
                  false, some .typeError⟩
      | none =>
          if listening then
            let sends1 := [OutMsg.led "G1" true]
            let lr := Tracker.loop B s tr now (!st.run)
            match lr.err with
            | some e => ⟨lr.backend, lr.tracker, applyMid st midConfWrite,
                pos_period, counter1, evs0 ++ lr.events, sends1, none, true,
                some e⟩
            | none =>
                let has_err := Tracker.has_tag_errors lr.tracker
                ⟨lr.backend, lr.tracker, applyMid st midConfWrite,
                  pos_period, counter1, evs0 ++ lr.events,
                  sends1 ++ [OutMsg.led "R1" has_err, OutMsg.led "G1" false],
                  some (max 0 (pos_period - elapsed)), true, none⟩
          else
            ⟨s, tr, st, pos_period, counter1, evs0, [], none, false,
              some .connectionRefusedError⟩

/-- How run_track_loop returned to main: normally (the on flag went
false, e.g. after a remote POWEROFF command) or through a local
KeyboardInterrupt. -/
inductive LoopExit where
  | normal
  | keyboardInterrupt
  deriving Repr, DecidableEq

/-- Embedding of the tail of main in scripts/run_tracker_daemon.py: a
KeyboardInterrupt is answered with update_state POWEROFF; the finally
block then joins the listener thread, disconnects the cloud client and
runs the system poweroff action exactly when the configuration flag
poweroff_on_exit is set. The returned Bool says whether
trkpy.system.poweroff is invoked; the finally block runs even when the
handler itself raised. -/
def main_finish (exitKind : LoopExit) (st : DaemonState) (listening : Bool)
    (poweroff_on_exit : Bool) : DaemonState × Bool :=
  let st1 :=
    match exitKind with
    | .keyboardInterrupt => (update_state "POWEROFF" st listening).1
    | .normal => st
  (st1, poweroff_on_exit)

/-- Outcome of the config-upload POST handler of scripts/collect_save.py
after JSON decoding: a schema-valid document is published on the config
topic of the chosen device; an invalid one is rejected with the
validation error message and nothing is published. -/
inductive UploadOutcome where
  | published (topic : String) (doc : Json)
  | rejected
  deriving Repr, BEq

/-- Embedding of the validation-and-publish step of the upload handler. -/
def uploadConfig (config : Json) (device : String) : UploadOutcome :=
  if validate_tracking_config config then
    .published ("config/" ++ device) config
  else
    .rejected

/-- Well-formedness of a localization result: a successful fix carries at
least three position components (true whenever the dimension is not 2D). -/
def wfRes : LocRes → Prop
  | .ok _ pos => ∃ x y z rest, pos = x :: y :: z :: rest
  | .fail _ _ => True

/-- Events that configure_tag can append. -/
def cfgAddedEvent (t : DevId) : Event → Prop
  | .configureTagCalled u => u = t
  | .clearDevicesCalled u => u = t
  | .addDeviceCalled u _ => u = t
  | .debugLogged _ => True
  | .errorLogged _ => True
  | _ => False

/-- Events that Tracker.check can append. -/
def checkAddedEvent : Event → Prop
  | .tagStatus _ _ => True
  | .anchorStatus _ _ => True
  | .debugLogged _ => True
  | .errorLogged _ => True
  | _ => False

/-- Events that the polling pass of Tracker.loop can append. -/
def pollAddedEvent : Event → Prop
  | .ledSet _ _ => True
  | .waited _ => True
  | .localized _ _ => True
  | _ => False

/-- Events that the response-processing pass of Tracker.loop can append. -/
def procAddedEvent : Event → Prop
  | .telemetry _ _ => True
  | .errorLogged _ => True
  | .debugLogged _ => True
  | .configureTagCalled _ => True
  | .clearDevicesCalled _ => True
  | .addDeviceCalled _ _ => True
  | _ => False

/-- Tracker states that agree on everything except the reconfiguration
set, which may only have grown. -/
def sameButSet (a b : TrackerState) : Prop :=
  b.pos_dim = a.pos_dim ∧ b.pos_algo = a.pos_algo ∧
  b.check_period = a.check_period ∧ b.loop_cnt = a.loop_cnt ∧
  b.wait_time = a.wait_time ∧ b.tags = a.tags ∧ b.anchors = a.anchors ∧
  ∀ t ∈ a.tags_to_reconfigure, t ∈ b.tags_to_reconfigure

/-- The head of Tracker.loop after the guard was evaluated: run the
check when the guard said so, prepending the checkRun marker. -/
def loopAfterCheck (B : Backend σ) (s : σ) (tr : TrackerState) (b : Bool) :
    σ × TrackerState × List Event :=
  if b then
    let r := Tracker.check B s tr
    (r.1, r.2.1, Event.checkRun :: r.2.2)
  else (s, tr, [])

/-- The DeviceCoordinates entry that set_anchors_manual builds for one
anchors-dict pair (flag 1 marks an anchor). -/
def toDC (p : Nat × Pos) : DeviceCoordinates :=
  ⟨p.1, 1, p.2⟩

/-- A schema-valid sample profile document, as json.loads decodes it. -/
def sampleProfile : Json :=
  .obj [("anchors", .obj [("0x1", .arr [.num 1, .num 2, .num 3])]),
    ("tags", .arr [.str "0x2"]), ("interval", .num 5)]

/-- The wire form of the sample profile document. -/
def sampleProfileStr : String :=
  "\x7b\"anchors\": \x7b\"0x1\": [1,2,3]\x7d, \"tags\": [\"0x2\"], \"interval\": 5\x7d"

/-- The last registered position of a device id in a dummy device list,
defaulting to the origin, as the dummy getDeviceCoordinates computes it. -/
def lastMatchPos (devs : List DeviceCoordinates) (nid : Nat) : Pos :=
  devs.foldl (fun acc dc => if dc.network_id = nid then dc.pos else acc)
    ((0, 0, 0) : Pos)

/-- The anchor dict that get_anchors_config reads back from a dummy
backend whose device list for the tag is devs. -/
def dummyReadback (devs : List DeviceCoordinates) : List (Nat × Pos) :=
  (devs.map (fun dc => dc.network_id)).foldl
    (fun acc nid => pyDictSet acc nid (lastMatchPos devs nid)) []

/-- The observable components of a track-loop iteration other than the
shared state: used to express that a concurrent pending-config write is
not observed by the iteration that is already past its top. -/
def obsOf (R : IterResult σ) :
    σ × TrackerState × ℚ × Nat × List Event × List OutMsg × Option ℚ ×
      Bool × Option PyErr :=
  (R.backend, R.tracker, R.period, R.counter, R.events, R.sends, R.sleep,
    R.ranPositioning, R.err)

section DictLemmas

variable {α : Type} {β : Type} [DecidableEq α]

theorem mem_pySetAdd_of_mem {s : List α} {a x : α} (h : x ∈ s) :
    x ∈ pySetAdd s a := by
  unfold pySetAdd
  split
  · exact h
  · exact List.mem_append_left _ h

theorem self_mem_pySetAdd (s : List α) (a : α) : a ∈ pySetAdd s a := by
  unfold pySetAdd
  split
  · assumption
  · simp

theorem mem_of_mem_pySetAdd {s : List α} {a x : α} (h : x ∈ pySetAdd s a) :
    x ∈ s ∨ x = a := by
  unfold pySetAdd at h
  split at h
  · exact Or.inl h
  · rcases List.mem_append.mp h with h1 | h1
    · exact Or.inl h1
    · simp at h1
      exact Or.inr h1

theorem not_mem_pySetRemove_self (s : List α) (x : α) :
    x ∉ pySetRemove s x := by
  simp [pySetRemove, List.mem_filter]

theorem mem_pySetRemove_of_ne {s : List α} {a x : α} (h : x ∈ s)
    (hne : x ≠ a) : x ∈ pySetRemove s a := by
  simp [pySetRemove, List.mem_filter, h, hne]

theorem not_mem_pySetRemove_of_not_mem {s : List α} {a x : α} (h : x ∉ s) :
    x ∉ pySetRemove s a := by
  intro hc
  exact h (List.mem_of_mem_filter hc)

theorem pyDictSet_of_not_mem {d : List (α × β)} {k : α}
    (h : d.any (fun p => p.1 = k) = false) (v : β) :
    pyDictSet d k v = d ++ [(k, v)] := by
  simp [pyDictSet, h]

theorem pyDictGet_map_self {d : List (α × β)} {k : α} {v : β}
    (h : ∃ q ∈ d, q.1 = k) :
    pyDictGet (d.map (fun p => if p.1 = k then (k, v) else p)) k = some v := by
  induction d with
  | nil => simp at h
  | cons p rest ih =>
      by_cases hp : p.1 = k
      · rw [List.map_cons, if_pos hp, pyDictGet,
          List.find?_cons_of_pos _ (by simp)]
        rfl
      · have hr : ∃ q ∈ rest, q.1 = k := by
          rcases h with ⟨q, hq, hqk⟩
          rcases List.mem_cons.mp hq with he | hm
          · exact absurd (he ▸ hqk) hp
          · exact ⟨q, hm, hqk⟩
        rw [List.map_cons, if_neg hp, pyDictGet,
          List.find?_cons_of_neg _ (by simpa using hp)]
        exact ih hr

theorem pyDictGet_map_ne (d : List (α × β)) (k : α) (v : β) {k' : α}
    (h : k' ≠ k) :
    pyDictGet (d.map (fun p => if p.1 = k then (k, v) else p)) k' =
      pyDictGet d k' := by
  induction d with
  | nil => simp
  | cons p rest ih =>
      by_cases hp : p.1 = k
      · have hk : ¬ ((k, v).1 = k') := fun he => h he.symm
        have hp' : ¬ (p.1 = k') := fun he => h (hp ▸ he).symm
        rw [List.map_cons, if_pos hp, pyDictGet,
          List.find?_cons_of_neg _ (by simpa using hk),
          pyDictGet, List.find?_cons_of_neg _ (by simpa using hp')]
        exact ih
      · by_cases hpk : p.1 = k'
        · rw [List.map_cons, if_neg hp, pyDictGet,
            List.find?_cons_of_pos _ (by simpa using hpk),
            pyDictGet, List.find?_cons_of_pos _ (by simpa using hpk)]
        · rw [List.map_cons, if_neg hp, pyDictGet,
            List.find?_cons_of_neg _ (by simpa using hpk),
            pyDictGet, List.find?_cons_of_neg _ (by simpa using hpk)]
          exact ih

theorem pyDictGet_append_single_self {d : List (α × β)} {k : α} {v : β}
    (h : ∀ q ∈ d, ¬ q.1 = k) :
    pyDictGet (d ++ [(k, v)]) k = some v := by
  induction d with
  | nil =>
      rw [List.nil_append, pyDictGet, List.find?_cons_of_pos _ (by simp)]
      rfl
  | cons p rest ih =>
      have hp : ¬ (p.1 = k) := h p (List.mem_cons_self p rest)
      rw [List.cons_append, pyDictGet,
        List.find?_cons_of_neg _ (by simpa using hp)]
      exact ih (fun q hq => h q (List.mem_cons_of_mem p hq))

theorem pyDictGet_append_single_ne (d : List (α × β)) (k : α) (v : β)
    {k' : α} (h : k' ≠ k) :
    pyDictGet (d ++ [(k, v)]) k' = pyDictGet d k' := by
  induction d with
  | nil =>
      have hk : ¬ ((k, v).1 = k') := fun he => h he.symm
      rw [List.nil_append, pyDictGet,
        List.find?_cons_of_neg _ (by simpa using hk)]
      simp [pyDictGet]
  | cons p rest ih =>
      by_cases hpk : p.1 = k'
      · rw [List.cons_append, pyDictGet,
          List.find?_cons_of_pos _ (by simpa using hpk),
          pyDictGet, List.find?_cons_of_pos _ (by simpa using hpk)]
      · rw [List.cons_append, pyDictGet,
          List.find?_cons_of_neg _ (by simpa using hpk),
          pyDictGet, List.find?_cons_of_neg _ (by simpa using hpk)]
        exact ih

theorem pyDictGet_pyDictSet_self (d : List (α × β)) (k : α) (v : β) :
    pyDictGet (pyDictSet d k v) k = some v := by
  unfold pyDictSet
  split
  · next hcond =>
      apply pyDictGet_map_self
      rcases List.any_eq_true.mp hcond with ⟨q, hq, hqk⟩
      exact ⟨q, hq, of_decide_eq_true hqk⟩
  · next hcond =>
      apply pyDictGet_append_single_self
      intro q hq hqk
      exact hcond (List.any_eq_true.mpr ⟨q, hq, decide_eq_true hqk⟩)

theorem pyDictGet_pyDictSet_ne (d : List (α × β)) (k : α) (v : β)
    {k' : α} (h : k' ≠ k) :
    pyDictGet (pyDictSet d k v) k' = pyDictGet d k' := by
  unfold pyDictSet
  split
  · exact pyDictGet_map_ne d k v h
  · exact pyDictGet_append_single_ne d k v h

theorem mem_pyDictSet {d : List (α × β)} {k : α} {v : β} {p : α × β}
    (h : p ∈ pyDictSet d k v) : p ∈ d ∨ p = (k, v) := by
  unfold pyDictSet at h
  split at h
  · rcases List.mem_map.mp h with ⟨q, hq, he⟩
    by_cases hqk : q.1 = k
    · rw [if_pos hqk] at he
      exact Or.inr he.symm
    · rw [if_neg hqk] at he
      exact Or.inl (he ▸ hq)
  · rcases List.mem_append.mp h with h1 | h1
    · exact Or.inl h1
    · simp at h1
      exact Or.inr h1

theorem pyDictGet_eq_some_of_mem_nodup {d : List (α × β)}
    (hnd : (d.map Prod.fst).Nodup) {k : α} {v : β} (h : (k, v) ∈ d) :
    pyDictGet d k = some v := by
  induction d with
  | nil => simp at h
  | cons p rest ih =>
      rw [List.map_cons, List.nodup_cons] at hnd
      rcases List.mem_cons.mp h with he | hm
      · rw [pyDictGet, List.find?_cons_of_pos _ (by simp [← he])]
        simp [← he]
      · have hp : ¬ (p.1 = k) := by
          intro hpk
          exact hnd.1 (hpk.symm ▸ List.mem_map.mpr ⟨(k, v), hm, rfl⟩)
        rw [pyDictGet, List.find?_cons_of_neg _ (by simpa using hp)]
        exact ih hnd.2 hm

theorem pyDictEq_self [DecidableEq β] {d : List (α × β)}
    (hnd : (d.map Prod.fst).Nodup) : pyDictEq d d = true := by
  unfold pyDictEq
  rw [Bool.and_eq_true]
  constructor <;>
  · rw [List.all_eq_true]
    intro p hp
    have : pyDictGet d p.1 = some p.2 :=
      pyDictGet_eq_some_of_mem_nodup hnd (by simpa using hp)
    simp [this]

end DictLemmas

section TrackerLemmas

variable {σ : Type}

theorem samStep_fold_events (B : Backend σ) (t : DevId) :
    ∀ (A : List (Nat × Pos)) (acc : σ × Status × List Event),
      (A.foldl (samStep B t) acc).2.2 =
        acc.2.2 ++ A.map (fun p => Event.addDeviceCalled t ⟨p.1, 1, p.2⟩) := by
  intro A
  induction A with
  | nil => intro acc; simp
  | cons p rest ih =>
      intro acc
      rw [List.foldl_cons, ih]
      simp [samStep]

theorem set_anchors_manual_events (B : Backend σ) (s : σ)
    (A : List (Nat × Pos)) (fl : Bool) (t : DevId) :
    (set_anchors_manual B s A fl t).2.2 =
      Event.clearDevicesCalled t ::
        A.map (fun p => Event.addDeviceCalled t ⟨p.1, 1, p.2⟩) := by
  show (A.foldl (samStep B t)
      ((B.clearDevices s t).1, (B.clearDevices s t).2,
        [Event.clearDevicesCalled t])).2.2 = _
  rw [samStep_fold_events]
  simp

theorem log_anchor_config_events (B : Backend σ) (s : σ) (t : DevId) :
    ∀ e ∈ (log_anchor_config B s t).2, ∃ m, e = Event.debugLogged m := by
  intro e he
  unfold log_anchor_config at he
  simp only [] at he
  split at he
  · simp at he
    exact ⟨_, he⟩
  · simp at he
    rcases he with ⟨a, b, c, d, _, hp⟩
    exact ⟨_, hp.symm⟩

theorem configure_tag_event_mem (B : Backend σ) (s : σ) (tr : TrackerState)
    (t : DevId) : ∀ e ∈ (configure_tag B s tr t).2, cfgAddedEvent t e := by
  intro e he
  unfold configure_tag at he
  simp only [] at he
  rw [List.mem_cons] at he
  rcases he with he | he
  · subst he; trivial
  · split at he
    · simp at he
    · split at he
      · rcases List.mem_append.mp he with h1 | h1
        · rw [set_anchors_manual_events] at h1
          rcases List.mem_cons.mp h1 with h2 | h2
          · subst h2; trivial
          · rcases List.mem_map.mp h2 with ⟨p, _, hp⟩
            subst hp; trivial
        · rcases log_anchor_config_events B _ t e h1 with ⟨m, hm⟩
          subst hm; trivial
      · rcases List.mem_append.mp he with h1 | h1
        · rw [set_anchors_manual_events] at h1
          rcases List.mem_cons.mp h1 with h2 | h2
          · subst h2; trivial
          · rcases List.mem_map.mp h2 with ⟨p, _, hp⟩
            subst hp; trivial
        · simp at h1
          subst h1; trivial

theorem configureTagCalled_mem_configure_tag (B : Backend σ) (s : σ)
    (tr : TrackerState) (t : DevId) :
    Event.configureTagCalled t ∈ (configure_tag B s tr t).2 := by
  unfold configure_tag
  exact List.mem_cons_self _ _

theorem sameButSet_refl (a : TrackerState) : sameButSet a a :=
  ⟨rfl, rfl, rfl, rfl, rfl, rfl, rfl, fun _ h => h⟩

theorem sameButSet_trans {a b c : TrackerState} (h1 : sameButSet a b)
    (h2 : sameButSet b c) : sameButSet a c := by
  obtain ⟨a1, a2, a3, a4, a5, a6, a7, a8⟩ := h1
  obtain ⟨b1, b2, b3, b4, b5, b6, b7, b8⟩ := h2
  exact ⟨b1.trans a1, b2.trans a2, b3.trans a3, b4.trans a4, b5.trans a5,
    b6.trans a6, b7.trans a7, fun t h => b8 t (a8 t h)⟩

theorem checkTagStep_tracker (B : Backend σ)
    (acc : σ × TrackerState × List Event) (u : DevId) :
    sameButSet acc.2.1 (checkTagStep B acc u).2.1 := by
  obtain ⟨sa, tra, evs⟩ := acc
  unfold checkTagStep
  generalize get_device_details B sa u = r
  obtain ⟨sb, details⟩ := r
  simp only []
  split
  · exact sameButSet_refl _
  · exact ⟨rfl, rfl, rfl, rfl, rfl, rfl, rfl,
      fun t h => mem_pySetAdd_of_mem h⟩

theorem checkTagStep_fold_tracker (B : Backend σ) :
    ∀ (l : List DevId) (acc : σ × TrackerState × List Event),
      sameButSet acc.2.1 ((l.foldl (checkTagStep B) acc)).2.1 := by
  intro l
  induction l with
  | nil => intro acc; exact sameButSet_refl _
  | cons u rest ih =>
      intro acc
      rw [List.foldl_cons]
      exact sameButSet_trans (checkTagStep_tracker B acc u) (ih _)

theorem check_tracker (B : Backend σ) (s : σ) (tr : TrackerState) :
    sameButSet tr (Tracker.check B s tr).2.1 := by
  show sameButSet tr ((tr.tags.foldl (checkTagStep B) (s, tr, [])).2.1)
  exact checkTagStep_fold_tracker B tr.tags (s, tr, [])

theorem checkTagStep_events (B : Backend σ)
    (acc : σ × TrackerState × List Event) (u : DevId) :
    ∀ e ∈ (checkTagStep B acc u).2.2, e ∈ acc.2.2 ∨ checkAddedEvent e := by
  obtain ⟨sa, tra, evs⟩ := acc
  intro e he
  revert he
  unfold checkTagStep
  generalize get_device_details B sa u = r
  obtain ⟨sb, details⟩ := r
  simp only []
  split <;>
  · intro he
    rcases List.mem_append.mp he with h2 | h2
    · exact Or.inl h2
    · right
      rcases List.mem_cons.mp h2 with h3 | h3
      · subst h3; trivial
      · simp at h3; subst h3; trivial

theorem checkTagStep_fold_events (B : Backend σ) :
    ∀ (l : List DevId) (acc : σ × TrackerState × List Event),
      ∀ e ∈ (l.foldl (checkTagStep B) acc).2.2,
        e ∈ acc.2.2 ∨ checkAddedEvent e := by
  intro l
  induction l with
  | nil => intro acc e he; exact Or.inl he
  | cons u rest ih =>
      intro acc e he
      rw [List.foldl_cons] at he
      rcases ih _ e he with h1 | h1
      · exact checkTagStep_events B acc u e h1
      · exact Or.inr h1

theorem checkAnchorStep_events (B : Backend σ) (acc : σ × List Event)
    (u : Nat) :
    ∀ e ∈ (checkAnchorStep B acc u).2, e ∈ acc.2 ∨ checkAddedEvent e := by
  intro e he
  revert he
  unfold checkAnchorStep
  generalize get_device_details B acc.1 (some u) = r
  obtain ⟨sb, details⟩ := r
  simp only []
  split <;>
  · intro he
    rcases List.mem_append.mp he with h2 | h2
    · exact Or.inl h2
    · right
      rcases List.mem_cons.mp h2 with h3 | h3
      · subst h3; trivial
      · simp at h3; subst h3; trivial

theorem checkAnchorStep_fold_events (B : Backend σ) :
    ∀ (l : List Nat) (acc : σ × List Event),
      ∀ e ∈ (l.foldl (checkAnchorStep B) acc).2,
        e ∈ acc.2 ∨ checkAddedEvent e := by
  intro l
  induction l with
  | nil => intro acc e he; exact Or.inl he
  | cons u rest ih =>
      intro acc e he
      rw [List.foldl_cons] at he
      rcases ih _ e he with h1 | h1
      · exact checkAnchorStep_events B acc u e h1
      · exact Or.inr h1

theorem check_event_mem (B : Backend σ) (s : σ) (tr : TrackerState) :
    ∀ e ∈ (Tracker.check B s tr).2.2, checkAddedEvent e := by
  intro e he
  have he2 : e ∈ (tr.tags.foldl (checkTagStep B) (s, tr, [])).2.2 ++
      ((((tr.tags.foldl (checkTagStep B) (s, tr, [])).2.1.anchors.map
        Prod.fst)).foldl (checkAnchorStep B)
        ((tr.tags.foldl (checkTagStep B) (s, tr, [])).1, [])).2 := he
  rcases List.mem_append.mp he2 with h1 | h1
  · rcases checkTagStep_fold_events B tr.tags _ e h1 with h2 | h2
    · simp at h2
    · exact h2
  · rcases checkAnchorStep_fold_events B _ _ e h1 with h2 | h2
    · simp at h2
    · exact h2

theorem do_positioning_shape (B : Backend σ) (s : σ) {dim : Dim}
    (h : dim ≠ Dim.dim2) (algo : Nat) (t : DevId) :
    (do_positioning B s dim algo t).2 = none ∨
      ∃ x y z, (do_positioning B s dim algo t).2 = some [x, y, z] := by
  unfold do_positioning
  simp only []
  by_cases hs : (B.doPositioning s dim algo t).2.1 ≠ POZYX_SUCCESS
  · rw [if_pos hs]
    left
    rfl
  · rw [if_neg hs, if_neg h]
    right
    exact ⟨_, _, _, rfl⟩

theorem localize_wf (B : Backend σ) {tr : TrackerState}
    (h : tr.pos_dim ≠ Dim.dim2) (s0 : σ) (now : ℚ) (t : DevId) :
    wfRes (Tracker.localize B s0 tr now t).2 := by
  unfold Tracker.localize
  simp only []
  rcases do_positioning_shape B s0 h tr.pos_algo t with h1 | ⟨x, y, z, h1⟩ <;>
    rw [h1]
  · trivial
  · exact ⟨x, y, z, [], rfl⟩

theorem any_eq_false_of_pyDictGet_none {α β : Type} [DecidableEq α]
    {d : List (α × β)} {k : α} (h : pyDictGet d k = none) :
    d.any (fun p => p.1 = k) = false := by
  unfold pyDictGet at h
  have h2 : List.find? (fun p => decide (p.1 = k)) d = none := by
    cases hf : List.find? (fun p => decide (p.1 = k)) d with
    | none => rfl
    | some p => rw [hf] at h; simp at h
  rw [List.find?_eq_none] at h2
  rw [List.any_eq_false]
  intro p hp
  simpa using h2 p hp

theorem pollTags_spec (B : Backend σ) (tr : TrackerState) (now : ℚ) :
    ∀ (l : List DevId) (s : σ) (acc : List (DevId × LocRes))
      (evsA : List Event), l.Nodup →
      (∀ t ∈ l, pyDictGet acc t = none) →
      ∃ ps : List (DevId × LocRes),
        (pollTags B tr now l s acc evsA).2.1 = acc ++ ps ∧
        ps.map Prod.fst = l ∧
        (pollTags B tr now l s acc evsA).2.2 = evsA ++ ps.bind (fun p =>
          [Event.ledSet p.1 true, Event.waited tr.wait_time,
            Event.localized p.1 p.2, Event.ledSet p.1 false]) ∧
        (∀ p ∈ ps, ∃ s0, p.2 = (Tracker.localize B s0 tr now p.1).2) := by
  intro l
  induction l with
  | nil =>
      intro s acc evsA _ _
      exact ⟨[], by simp [pollTags], by simp, by simp [pollTags], by simp⟩
  | cons t rest ih =>
      intro s acc evsA hnd hdis
      rw [List.nodup_cons] at hnd
      have hacc : pyDictGet acc t = none := hdis t (List.mem_cons_self t rest)
      have hstep : pollTags B tr now (t :: rest) s acc evsA =
          pollTags B tr now rest
            ((B.setLed ((Tracker.localize B ((B.setLed s 1 true t).1) tr now
              t).1) 1 false t).1)
            (pyDictSet acc t
              ((Tracker.localize B ((B.setLed s 1 true t).1) tr now t).2))
            (evsA ++ [Event.ledSet t true, Event.waited tr.wait_time,
              Event.localized t
                ((Tracker.localize B ((B.setLed s 1 true t).1) tr now t).2),
              Event.ledSet t false]) := rfl
      rw [hstep]
      have hdis2 : ∀ u ∈ rest,
          pyDictGet (pyDictSet acc t
            ((Tracker.localize B ((B.setLed s 1 true t).1) tr now t).2)) u =
            none := by
        intro u hu
        have hut : u ≠ t := fun he => hnd.1 (he ▸ hu)
        rw [pyDictGet_pyDictSet_ne _ _ _ hut]
        exact hdis u (List.mem_cons_of_mem t hu)
      obtain ⟨ps, h1, h2, h3, h4⟩ := ih _ _ _ hnd.2 hdis2
      refine ⟨(t, (Tracker.localize B ((B.setLed s 1 true t).1) tr now t).2)
        :: ps, ?_, ?_, ?_, ?_⟩
      · rw [h1, pyDictSet_of_not_mem (any_eq_false_of_pyDictGet_none hacc)]
        simp
      · simpa using h2
      · rw [h3]
        simp
      · intro p hp
        rcases List.mem_cons.mp hp with he | hm
        · exact ⟨(B.setLed s 1 true t).1, by rw [he]⟩
        · exact h4 p hm

theorem processRes_cons (B : Backend σ) (t : DevId) (res : LocRes)
    (rest : List (DevId × LocRes)) (s : σ) (tr : TrackerState)
    (evs : List Event) :
    processRes B ((t, res) :: rest) s tr evs =
      match res with
      | .ok q pos =>
          if t ∈ tr.tags_to_reconfigure then
            processRes B rest (configure_tag B s tr t).1
              { tr with tags_to_reconfigure :=
                  pySetRemove tr.tags_to_reconfigure t }
              (evs ++ (configure_tag B s tr t).2)
          else
            match pos with
            | x :: y :: z :: _ =>
                processRes B rest s tr (evs ++ [Event.telemetry t
                  ⟨x, y, z, get_network_name t, Rat.floor (q * 1000)⟩])
            | _ => (s, tr, evs, some .indexError)
      | .fail _ msg =>
          processRes B rest s
            { tr with tags_to_reconfigure :=
                pySetAdd tr.tags_to_reconfigure t }
            (evs ++ [Event.errorLogged msg]) := by
  rcases res with ⟨q, pos⟩ | ⟨q, msg⟩ <;> rfl

theorem processRes_events_mono (B : Backend σ) :
    ∀ (rs : List (DevId × LocRes)) (s : σ) (tr : TrackerState)
      (evs : List Event),
      ∃ ex, (processRes B rs s tr evs).2.2.1 = evs ++ ex := by
  intro rs
  induction rs with
  | nil => intro s tr evs; exact ⟨[], by simp [processRes]⟩
  | cons p rest ih =>
      intro s tr evs
      obtain ⟨t, res⟩ := p
      rw [processRes_cons]
      rcases res with ⟨q, pos⟩ | ⟨q, msg⟩ <;> try simp only []
      · by_cases hmem : t ∈ tr.tags_to_reconfigure
      -- configure branch
        · rw [if_pos hmem]
          obtain ⟨ex, hex⟩ := ih _ _ _
          exact ⟨(configure_tag B s tr t).2 ++ ex,
            by rw [hex, List.append_assoc]⟩
        · rw [if_neg hmem]
          rcases pos with _ | ⟨x, _ | ⟨y, _ | ⟨z, restp⟩⟩⟩ <;> try simp only []
          · exact ⟨[], by simp⟩
          · exact ⟨[], by simp⟩
          · exact ⟨[], by simp⟩
          · obtain ⟨ex, hex⟩ := ih s tr (evs ++ [Event.telemetry t
              ⟨x, y, z, get_network_name t, Rat.floor (q * 1000)⟩])
            exact ⟨[Event.telemetry t ⟨x, y, z, get_network_name t,
              Rat.floor (q * 1000)⟩] ++ ex,
              by rw [hex, List.append_assoc]⟩
      · obtain ⟨ex, hex⟩ := ih s
          { tr with tags_to_reconfigure :=
              pySetAdd tr.tags_to_reconfigure t }
          (evs ++ [Event.errorLogged msg])
        exact ⟨[Event.errorLogged msg] ++ ex,
          by rw [hex, List.append_assoc]⟩

theorem processRes_event_mem (B : Backend σ) :
    ∀ (rs : List (DevId × LocRes)) (s : σ) (tr : TrackerState)
      (evs : List Event),
      ∀ e ∈ (processRes B rs s tr evs).2.2.1,
        e ∈ evs ∨ procAddedEvent e := by
  intro rs
  induction rs with
  | nil => intro s tr evs e he; exact Or.inl he
  | cons p rest ih =>
      intro s tr evs e he
      obtain ⟨t, res⟩ := p
      rw [processRes_cons] at he
      rcases res with ⟨q, pos⟩ | ⟨q, msg⟩ <;> try simp only [] at he
      · by_cases hmem : t ∈ tr.tags_to_reconfigure
        · rw [if_pos hmem] at he
          rcases ih _ _ _ e he with h1 | h1
          · rcases List.mem_append.mp h1 with h2 | h2
            · exact Or.inl h2
            · right
              have := configure_tag_event_mem B s tr t e h2
              revert this
              cases e <;> simp [cfgAddedEvent, procAddedEvent]
          · exact Or.inr h1
        · rw [if_neg hmem] at he
          rcases pos with _ | ⟨x, _ | ⟨y, _ | ⟨z, restp⟩⟩⟩ <;>
            try simp only [] at he
          · exact Or.inl he
          · exact Or.inl he
          · exact Or.inl he
          · rcases ih _ _ _ e he with h1 | h1
            · rcases List.mem_append.mp h1 with h2 | h2
              · exact Or.inl h2
              · right
                simp at h2
                subst h2
                trivial
            · exact Or.inr h1
      · rcases ih _ _ _ e he with h1 | h1
        · rcases List.mem_append.mp h1 with h2 | h2
          · exact Or.inl h2
          · right
            simp at h2
            subst h2
            trivial
        · exact Or.inr h1

theorem processRes_loop_cnt (B : Backend σ) :
    ∀ (rs : List (DevId × LocRes)) (s : σ) (tr : TrackerState)
      (evs : List Event),
      (processRes B rs s tr evs).2.1.loop_cnt = tr.loop_cnt := by
  intro rs
  induction rs with
  | nil => intro s tr evs; rfl
  | cons p rest ih =>
      intro s tr evs
      obtain ⟨t, res⟩ := p
      rw [processRes_cons]
      rcases res with ⟨q, pos⟩ | ⟨q, msg⟩ <;> try simp only []
      · by_cases hmem : t ∈ tr.tags_to_reconfigure
        · rw [if_pos hmem]
          exact ih _ _ _
        · rw [if_neg hmem]
          rcases pos with _ | ⟨x, _ | ⟨y, _ | ⟨z, restp⟩⟩⟩ <;>
            first
            | rfl
            | exact ih _ _ _
      · exact ih _ _ _

theorem processRes_no_err (B : Backend σ) :
    ∀ (rs : List (DevId × LocRes)) (s : σ) (tr : TrackerState)
      (evs : List Event), (∀ p ∈ rs, wfRes p.2) →
      (processRes B rs s tr evs).2.2.2 = none := by
  intro rs
  induction rs with
  | nil => intro s tr evs _; rfl
  | cons p rest ih =>
      intro s tr evs hwf
      obtain ⟨t, res⟩ := p
      have hwfr : ∀ p ∈ rest, wfRes p.2 :=
        fun p hp => hwf p (List.mem_cons_of_mem _ hp)
      rw [processRes_cons]
      rcases res with ⟨q, pos⟩ | ⟨q, msg⟩ <;> try simp only []
      · by_cases hmem : t ∈ tr.tags_to_reconfigure
        · rw [if_pos hmem]
          exact ih _ _ _ hwfr
        · rw [if_neg hmem]
          have hw : wfRes (LocRes.ok q pos) :=
            hwf (t, LocRes.ok q pos) (List.mem_cons_self _ _)
          obtain ⟨x, y, z, restp, hp⟩ := hw
          subst hp
          exact ih _ _ _ hwfr
      · exact ih _ _ _ hwfr

theorem processRes_keep (B : Backend σ) {tag : DevId} :
    ∀ (rs : List (DevId × LocRes)) (s : σ) (tr : TrackerState)
      (evs : List Event), tag ∉ rs.map Prod.fst →
      tag ∉ tr.tags_to_reconfigure →
      tag ∉ (processRes B rs s tr evs).2.1.tags_to_reconfigure ∧
      (∀ d, Event.telemetry tag d ∈ (processRes B rs s tr evs).2.2.1 →
        Event.telemetry tag d ∈ evs) := by
  intro rs
  induction rs with
  | nil => intro s tr evs _ hset; exact ⟨hset, fun d hd => hd⟩
  | cons p rest ih =>
      intro s tr evs hkeys hset
      obtain ⟨t, res⟩ := p
      have htag : tag ≠ t := by
        intro he
        exact hkeys (by simp [he])
      have hkeys2 : tag ∉ rest.map Prod.fst := by
        intro hc
        exact hkeys (by simp [hc])
      rw [processRes_cons]
      rcases res with ⟨q, pos⟩ | ⟨q, msg⟩ <;> try simp only []
      · by_cases hmem : t ∈ tr.tags_to_reconfigure
        · rw [if_pos hmem]
          have hset2 : tag ∉ pySetRemove tr.tags_to_reconfigure t :=
            not_mem_pySetRemove_of_not_mem hset
          obtain ⟨ha, hb⟩ := ih (configure_tag B s tr t).1
            { tr with tags_to_reconfigure :=
                pySetRemove tr.tags_to_reconfigure t }
            (evs ++ (configure_tag B s tr t).2) hkeys2 hset2
          refine ⟨ha, fun d hd => ?_⟩
          have := hb d hd
          rcases List.mem_append.mp this with h2 | h2
          · exact h2
          · exact absurd (configure_tag_event_mem B s tr t _ h2) (by
              simp [cfgAddedEvent])
        · rw [if_neg hmem]
          rcases pos with _ | ⟨x, _ | ⟨y, _ | ⟨z, restp⟩⟩⟩ <;> try simp only []
          · exact ⟨hset, fun d hd => hd⟩
          · exact ⟨hset, fun d hd => hd⟩
          · exact ⟨hset, fun d hd => hd⟩
          · obtain ⟨ha, hb⟩ := ih s tr (evs ++ [Event.telemetry t
              ⟨x, y, z, get_network_name t, Rat.floor (q * 1000)⟩])
              hkeys2 hset
            refine ⟨ha, fun d hd => ?_⟩
            have := hb d hd
            rcases List.mem_append.mp this with h2 | h2
            · exact h2
            · simp at h2
              exact absurd h2.1 htag
      · have hset2 : tag ∉ pySetAdd tr.tags_to_reconfigure t := by
          intro hc
          rcases mem_of_mem_pySetAdd hc with h2 | h2
          · exact hset h2
          · exact htag h2
        obtain ⟨ha, hb⟩ := ih s
          { tr with tags_to_reconfigure :=
              pySetAdd tr.tags_to_reconfigure t }
          (evs ++ [Event.errorLogged msg]) hkeys2 hset2
        refine ⟨ha, fun d hd => ?_⟩
        have := hb d hd
        rcases List.mem_append.mp this with h2 | h2
        · exact h2
        · simp at h2

theorem processRes_main (B : Backend σ) {tag : DevId} {res : LocRes} :
    ∀ (rs : List (DevId × LocRes)) (s : σ) (tr : TrackerState)
      (evs : List Event), (∀ p ∈ rs, wfRes p.2) →
      (rs.map Prod.fst).Nodup → tag ∈ tr.tags_to_reconfigure →
      (tag, res) ∈ rs → res.success = true →
      Event.configureTagCalled tag ∈ (processRes B rs s tr evs).2.2.1 ∧
      tag ∉ (processRes B rs s tr evs).2.1.tags_to_reconfigure ∧
      (∀ d, Event.telemetry tag d ∈ (processRes B rs s tr evs).2.2.1 →
        Event.telemetry tag d ∈ evs) := by
  intro rs
  induction rs with
  | nil => intro s tr evs _ _ _ hmem _; simp at hmem
  | cons p rest ih =>
      intro s tr evs hwf hnd hset hmem hsucc
      obtain ⟨t, r⟩ := p
      rw [List.map_cons, List.nodup_cons] at hnd
      by_cases htag : t = tag
      · have hsett : t ∈ tr.tags_to_reconfigure := by rw [htag]; exact hset
        have hr : r = res := by
          rcases List.mem_cons.mp hmem with he | hm
          · have h2 : res = (t, r).2 := by rw [← he]
            exact h2.symm
          · exfalso
            apply hnd.1
            rw [htag]
            exact List.mem_map.mpr ⟨(tag, res), hm, rfl⟩
        have hsuccr : r.success = true := by rw [hr]; exact hsucc
        rcases r with ⟨q, pos⟩ | ⟨q, msg⟩
        · rw [processRes_cons]
          simp only []
          rw [if_pos hsett]
          have hkeys2 : tag ∉ rest.map Prod.fst := by rw [← htag]; exact hnd.1
          have hset2 : tag ∉ pySetRemove tr.tags_to_reconfigure t := by
            rw [← htag]
            exact not_mem_pySetRemove_self _ _
          obtain ⟨ha, hb⟩ := processRes_keep B rest (configure_tag B s tr t).1
            { tr with tags_to_reconfigure :=
                pySetRemove tr.tags_to_reconfigure t }
            (evs ++ (configure_tag B s tr t).2) hkeys2 hset2
          obtain ⟨ex, hex⟩ := processRes_events_mono B rest
            (configure_tag B s tr t).1
            { tr with tags_to_reconfigure :=
                pySetRemove tr.tags_to_reconfigure t }
            (evs ++ (configure_tag B s tr t).2)
          refine ⟨?_, ha, fun d hd => ?_⟩
          · rw [hex, htag]
            exact List.mem_append_left _ (List.mem_append_right _
              (configureTagCalled_mem_configure_tag B s tr tag))
          · have := hb d hd
            rcases List.mem_append.mp this with h2 | h2
            · exact h2
            · exact absurd (configure_tag_event_mem B s tr t _ h2) (by
                simp [cfgAddedEvent])
        · simp [LocRes.success] at hsuccr
      · have hmem2 : (tag, res) ∈ rest := by
          rcases List.mem_cons.mp hmem with he | hm
          · exact absurd (congrArg Prod.fst he).symm htag
          · exact hm
        have hwfr : ∀ p ∈ rest, wfRes p.2 :=
          fun p hp => hwf p (List.mem_cons_of_mem _ hp)
        rw [processRes_cons]
        rcases r with ⟨q, pos⟩ | ⟨q, msg⟩ <;> try simp only []
        · by_cases hmem3 : t ∈ tr.tags_to_reconfigure
          · rw [if_pos hmem3]
            have hset2 : tag ∈ pySetRemove tr.tags_to_reconfigure t :=
              mem_pySetRemove_of_ne hset (fun he => htag he.symm)
            obtain ⟨ha, hb, hc⟩ := ih (configure_tag B s tr t).1
              { tr with tags_to_reconfigure :=
                  pySetRemove tr.tags_to_reconfigure t }
              (evs ++ (configure_tag B s tr t).2)
              hwfr hnd.2 hset2 hmem2 hsucc
            refine ⟨ha, hb, fun d hd => ?_⟩
            have := hc d hd
            rcases List.mem_append.mp this with h2 | h2
            · exact h2
            · exact absurd (configure_tag_event_mem B s tr t _ h2) (by
                simp [cfgAddedEvent])
          · rw [if_neg hmem3]
            have hw : wfRes (LocRes.ok q pos) :=
              hwf (t, LocRes.ok q pos) (List.mem_cons_self _ _)
            obtain ⟨x, y, z, restp, hp⟩ := hw
            subst hp
            simp only []
            obtain ⟨ha, hb, hc⟩ := ih s tr (evs ++ [Event.telemetry t
              ⟨x, y, z, get_network_name t, Rat.floor (q * 1000)⟩])
              hwfr hnd.2 hset hmem2 hsucc
            refine ⟨ha, hb, fun d hd => ?_⟩
            have := hc d hd
            rcases List.mem_append.mp this with h2 | h2
            · exact h2
            · simp at h2
              exact absurd h2.1 (fun he => htag he.symm)
        · have hset2 : tag ∈ pySetAdd tr.tags_to_reconfigure t :=
            mem_pySetAdd_of_mem hset
          obtain ⟨ha, hb, hc⟩ := ih s
            { tr with tags_to_reconfigure :=
                pySetAdd tr.tags_to_reconfigure t }
            (evs ++ [Event.errorLogged msg])
            hwfr hnd.2 hset2 hmem2 hsucc
          refine ⟨ha, hb, fun d hd => ?_⟩
          have := hc d hd
          rcases List.mem_append.mp this with h2 | h2
          · exact h2
          · simp at h2

theorem pollTags_cons (B : Backend σ) (tr : TrackerState) (now : ℚ)
    (t : DevId) (rest : List DevId) (s : σ)
    (acc : List (DevId × LocRes)) (evsA : List Event) :
    pollTags B tr now (t :: rest) s acc evsA =
      pollTags B tr now rest
        ((B.setLed ((Tracker.localize B ((B.setLed s 1 true t).1) tr now
          t).1) 1 false t).1)
        (pyDictSet acc t
          ((Tracker.localize B ((B.setLed s 1 true t).1) tr now t).2))
        (evsA ++ [Event.ledSet t true, Event.waited tr.wait_time,
          Event.localized t
            ((Tracker.localize B ((B.setLed s 1 true t).1) tr now t).2),
          Event.ledSet t false]) := rfl

theorem pollTags_event_mem (B : Backend σ) (tr : TrackerState) (now : ℚ) :
    ∀ (l : List DevId) (s : σ) (acc : List (DevId × LocRes))
      (evsA : List Event),
      ∀ e ∈ (pollTags B tr now l s acc evsA).2.2,
        e ∈ evsA ∨ pollAddedEvent e := by
  intro l
  induction l with
  | nil => intro s acc evsA e he; exact Or.inl he
  | cons t rest ih =>
      intro s acc evsA e he
      rw [pollTags_cons] at he
      rcases ih _ _ _ e he with h1 | h1
      · rcases List.mem_append.mp h1 with h2 | h2
        · exact Or.inl h2
        · right
          rcases List.mem_cons.mp h2 with h3 | h3
          · subst h3; trivial
          rcases List.mem_cons.mp h3 with h4 | h4
          · subst h4; trivial
          rcases List.mem_cons.mp h4 with h5 | h5
          · subst h5; trivial
          simp at h5
          subst h5; trivial
      · exact Or.inr h1

theorem pollTags_wf (B : Backend σ) {tr : TrackerState}
    (hdim : tr.pos_dim ≠ Dim.dim2) (now : ℚ) :
    ∀ (l : List DevId) (s : σ) (acc : List (DevId × LocRes))
      (evsA : List Event), (∀ p ∈ acc, wfRes p.2) →
      ∀ p ∈ (pollTags B tr now l s acc evsA).2.1, wfRes p.2 := by
  intro l
  induction l with
  | nil => intro s acc evsA hacc p hp; exact hacc p hp
  | cons t rest ih =>
      intro s acc evsA hacc p hp
      rw [pollTags_cons] at hp
      refine ih _ _ _ ?_ p hp
      intro q hq
      rcases mem_pyDictSet hq with h1 | h1
      · exact hacc q h1
      · rw [h1]
        exact localize_wf B hdim _ now t

theorem loopCheckGuard_ok (cp cnt : Nat) :
    ∃ b, loopCheckGuard cp cnt = Except.ok b ∧
      (b = true ↔ cp ≠ 0 ∧ cnt % cp = 0) := by
  unfold loopCheckGuard pymod
  by_cases h : cp = 0
  · rw [if_pos h]
    exact ⟨false, rfl, by simp [h]⟩
  · rw [if_neg h, if_neg h]
    exact ⟨cnt % cp == 0, rfl, by simp [h]⟩

theorem loopAfterCheck_tracker (B : Backend σ) (s : σ) (tr : TrackerState)
    (b : Bool) : sameButSet tr (loopAfterCheck B s tr b).2.1 := by
  unfold loopAfterCheck
  split
  · exact check_tracker B s tr
  · exact sameButSet_refl tr

theorem loopAfterCheck_event_mem (B : Backend σ) (s : σ)
    (tr : TrackerState) (b : Bool) :
    ∀ e ∈ (loopAfterCheck B s tr b).2.2,
      e = Event.checkRun ∨ checkAddedEvent e := by
  intro e he
  unfold loopAfterCheck at he
  split at he
  · simp only [] at he
    rcases List.mem_cons.mp he with h1 | h1
    · exact Or.inl h1
    · exact Or.inr (check_event_mem B s tr e h1)
  · simp at he

theorem loopAfterCheck_events_false (B : Backend σ) (s : σ)
    (tr : TrackerState) : (loopAfterCheck B s tr false).2.2 = [] := rfl

theorem loopAfterCheck_checkRun_true (B : Backend σ) (s : σ)
    (tr : TrackerState) :
    Event.checkRun ∈ (loopAfterCheck B s tr true).2.2 := by
  unfold loopAfterCheck
  simp only [if_pos]
  exact List.mem_cons_self _ _

theorem Tracker.loop_eq_run (B : Backend σ) (s : σ) (tr : TrackerState)
    (now : ℚ) {b : Bool}
    (hb : loopCheckGuard tr.check_period tr.loop_cnt = Except.ok b) :
    Tracker.loop B s tr now false =
      (let a := loopAfterCheck B s tr b
       let tr2 := { a.2.1 with loop_cnt := a.2.1.loop_cnt + 1 }
       let pr := pollTags B tr2 now tr2.tags a.1 [] []
       let q := processRes B pr.2.1 pr.1 tr2 (a.2.2 ++ pr.2.2)
       (⟨q.1, q.2.1, q.2.2.1, q.2.2.2⟩ : LoopResult σ)) := by
  unfold Tracker.loop
  rw [hb]
  rfl

theorem Tracker.loop_eq_check (B : Backend σ) (s : σ) (tr : TrackerState)
    (now : ℚ) {b : Bool}
    (hb : loopCheckGuard tr.check_period tr.loop_cnt = Except.ok b) :
    Tracker.loop B s tr now true =
      (let a := loopAfterCheck B s tr b
       (⟨a.1, { a.2.1 with loop_cnt := a.2.1.loop_cnt + 1 }, a.2.2,
         none⟩ : LoopResult σ)) := by
  unfold Tracker.loop
  rw [hb]
  rfl

theorem Tracker.loop_no_err (B : Backend σ) (s : σ) {tr : TrackerState}
    (now : ℚ) (co : Bool) (hdim : tr.pos_dim ≠ Dim.dim2) :
    (Tracker.loop B s tr now co).err = none := by
  obtain ⟨b, hb, _⟩ := loopCheckGuard_ok tr.check_period tr.loop_cnt
  cases co
  · rw [Tracker.loop_eq_run B s tr now hb]
    simp only []
    have hfields := loopAfterCheck_tracker B s tr b
    have hdim2 : ({ (loopAfterCheck B s tr b).2.1 with
        loop_cnt := (loopAfterCheck B s tr b).2.1.loop_cnt + 1
          : TrackerState }).pos_dim ≠ Dim.dim2 := by
      show (loopAfterCheck B s tr b).2.1.pos_dim ≠ Dim.dim2
      rw [hfields.1]
      exact hdim
    apply processRes_no_err
    apply pollTags_wf B hdim2
    intro p hp
    simp at hp
  · rw [Tracker.loop_eq_check B s tr now hb]

/-- C1: self-healing of the Tracker loop. For a tag already queued for
reconfiguration at the start of a loop() call whose localize succeeds,
the call runs configure_tag on the tag, removes it from the
reconfiguration set, and publishes no telemetry record for it. -/
theorem c1_self_healing {σ : Type} (B : Backend σ) (s : σ)
    (tr : TrackerState) (now : ℚ) (tag : DevId) (res : LocRes)
    (hnodup : tr.tags.Nodup) (hdim : tr.pos_dim ≠ Dim.dim2)
    (hbad : tag ∈ tr.tags_to_reconfigure)
    (hloc : Event.localized tag res ∈ (Tracker.loop B s tr now false).events)
    (hsucc : res.success = true) :
    Event.configureTagCalled tag ∈ (Tracker.loop B s tr now false).events ∧
    tag ∉ (Tracker.loop B s tr now false).tracker.tags_to_reconfigure ∧
    ∀ d, Event.telemetry tag d ∉ (Tracker.loop B s tr now false).events := by
  obtain ⟨b, hb, _⟩ := loopCheckGuard_ok tr.check_period tr.loop_cnt
  rw [Tracker.loop_eq_run B s tr now hb] at hloc ⊢
  simp only [] at hloc ⊢
  have hfields := loopAfterCheck_tracker B s tr b
  set a := loopAfterCheck B s tr b with ha
  set tr2 : TrackerState :=
    { a.2.1 with loop_cnt := a.2.1.loop_cnt + 1 } with htr2
  have htags2 : tr2.tags = tr.tags := hfields.2.2.2.2.2.1
  have hdim2 : tr2.pos_dim ≠ Dim.dim2 := by
    show a.2.1.pos_dim ≠ Dim.dim2
    rw [hfields.1]
    exact hdim
  have hbad2 : tag ∈ tr2.tags_to_reconfigure :=
    hfields.2.2.2.2.2.2.2 tag hbad
  obtain ⟨ps, hresp, hkeys, hevs, horig⟩ := pollTags_spec B tr2 now
    tr2.tags a.1 [] [] (htags2 ▸ hnodup) (by intro t _; rfl)
  have hwf : ∀ p ∈ (pollTags B tr2 now tr2.tags a.1 [] []).2.1, wfRes p.2 :=
    pollTags_wf B hdim2 now tr2.tags a.1 [] [] (by intro p hp; simp at hp)
  have hwfps : ∀ p ∈ ps, wfRes p.2 := by
    intro p hp
    apply hwf
    rw [hresp]
    simpa using hp
  have hndps : (ps.map Prod.fst).Nodup := by
    rw [hkeys, htags2]
    exact hnodup
  -- the localized event identifies the tag's entry in the responses
  have hmem : (tag, res) ∈ ps := by
    rcases processRes_event_mem B _ _ _ _ _ hloc with h1 | h1
    · rcases List.mem_append.mp h1 with h2 | h2
      · rcases loopAfterCheck_event_mem B s tr b _ h2 with h3 | h3
        · simp at h3
        · simp [checkAddedEvent] at h3
      · rcases pollTags_event_mem B tr2 now tr2.tags a.1 [] [] _ h2
          with h3 | h3
        · simp at h3
        · rw [hevs] at h2
          simp only [List.nil_append] at h2
          rcases List.mem_bind.mp h2 with ⟨p, hp, hin⟩
          rcases List.mem_cons.mp hin with h4 | h4
          · simp at h4
          rcases List.mem_cons.mp h4 with h5 | h5
          · simp at h5
          rcases List.mem_cons.mp h5 with h6 | h6
          · have h7 : tag = p.1 ∧ res = p.2 := by
              constructor
              · exact (Event.localized.injEq _ _ _ _).mp h6 |>.1
              · exact (Event.localized.injEq _ _ _ _).mp h6 |>.2
            have : p = (tag, res) := by
              obtain ⟨p1, p2⟩ := p
              simp at h7
              simp [h7.1, h7.2]
            rw [← this]
            exact hp
          · simp at h6
    · simp [procAddedEvent] at h1
  have hrespeq : (pollTags B tr2 now tr2.tags a.1 [] []).2.1 = ps := by
    rw [hresp]
    simp
  obtain ⟨hc1, hc2, hc3⟩ := processRes_main B ps
    ((pollTags B tr2 now tr2.tags a.1 [] []).1) tr2
    (a.2.2 ++ (pollTags B tr2 now tr2.tags a.1 [] []).2.2)
    hwfps hndps hbad2 hmem hsucc
  rw [hrespeq]
  refine ⟨hc1, hc2, fun d hd => ?_⟩
  have := hc3 d hd
  rcases List.mem_append.mp this with h2 | h2
  · rcases loopAfterCheck_event_mem B s tr b _ h2 with h3 | h3
    · simp at h3
    · simp [checkAddedEvent] at h3
  · rcases pollTags_event_mem B tr2 now tr2.tags a.1 [] [] _ h2 with h3 | h3
    · simp at h3
    · simp [pollAddedEvent] at h3

/-- C10: the periodic-check guard of Tracker.loop. A zero check_period
makes the guard evaluate to false without ever reaching the modulo (no
ZeroDivisionError) and check() is never invoked; a positive period N
invokes check() exactly when the internal call counter is congruent to 0
modulo N; the counter is incremented on every call, check-only or not. -/
theorem c10_periodic_check_guard {σ : Type} (B : Backend σ) (s : σ)
    (tr : TrackerState) (now : ℚ) (co : Bool) :
    (Tracker.loop B s tr now co).tracker.loop_cnt = tr.loop_cnt + 1 ∧
    (tr.check_period = 0 →
      loopCheckGuard tr.check_period tr.loop_cnt = Except.ok false ∧
      Event.checkRun ∉ (Tracker.loop B s tr now co).events) ∧
    (0 < tr.check_period →
      (Event.checkRun ∈ (Tracker.loop B s tr now co).events ↔
        tr.loop_cnt % tr.check_period = 0)) := by
  obtain ⟨b, hb, hbiff⟩ := loopCheckGuard_ok tr.check_period tr.loop_cnt
  have hfields := loopAfterCheck_tracker B s tr b
  have hnotin : b = false →
      Event.checkRun ∉ (Tracker.loop B s tr now co).events := by
    intro hbf he
    cases co
    · rw [Tracker.loop_eq_run B s tr now hb] at he
      simp only [] at he
      rcases processRes_event_mem B _ _ _ _ _ he with h1 | h1
      · rcases List.mem_append.mp h1 with h2 | h2
        · rw [hbf, loopAfterCheck_events_false] at h2
          simp at h2
        · rcases pollTags_event_mem B _ now _ _ [] [] _ h2 with h3 | h3
          · simp at h3
          · simp [pollAddedEvent] at h3
      · simp [procAddedEvent] at h1
    · rw [Tracker.loop_eq_check B s tr now hb] at he
      simp only [] at he
      rw [hbf, loopAfterCheck_events_false] at he
      simp at he
  have hin : b = true →
      Event.checkRun ∈ (Tracker.loop B s tr now co).events := by
    intro hbt
    cases co
    · rw [Tracker.loop_eq_run B s tr now hb]
      simp only []
      obtain ⟨ex, hex⟩ := processRes_events_mono B
        (pollTags B { (loopAfterCheck B s tr b).2.1 with
          loop_cnt := (loopAfterCheck B s tr b).2.1.loop_cnt + 1 } now
          ({ (loopAfterCheck B s tr b).2.1 with
            loop_cnt := (loopAfterCheck B s tr b).2.1.loop_cnt + 1
              : TrackerState }).tags (loopAfterCheck B s tr b).1 [] []).2.1
        (pollTags B { (loopAfterCheck B s tr b).2.1 with
          loop_cnt := (loopAfterCheck B s tr b).2.1.loop_cnt + 1 } now
          ({ (loopAfterCheck B s tr b).2.1 with
            loop_cnt := (loopAfterCheck B s tr b).2.1.loop_cnt + 1
              : TrackerState }).tags (loopAfterCheck B s tr b).1 [] []).1
        { (loopAfterCheck B s tr b).2.1 with
          loop_cnt := (loopAfterCheck B s tr b).2.1.loop_cnt + 1 }
        ((loopAfterCheck B s tr b).2.2 ++
          (pollTags B { (loopAfterCheck B s tr b).2.1 with
            loop_cnt := (loopAfterCheck B s tr b).2.1.loop_cnt + 1 } now
            ({ (loopAfterCheck B s tr b).2.1 with
              loop_cnt := (loopAfterCheck B s tr b).2.1.loop_cnt + 1
                : TrackerState }).tags (loopAfterCheck B s tr b).1 [] []).2.2)
      rw [hex]
      apply List.mem_append_left
      apply List.mem_append_left
      rw [hbt]
      exact loopAfterCheck_checkRun_true B s tr
    · rw [Tracker.loop_eq_check B s tr now hb]
      simp only []
      rw [hbt]
      exact loopAfterCheck_checkRun_true B s tr
  refine ⟨?_, ?_, ?_⟩
  · cases co
    · rw [Tracker.loop_eq_run B s tr now hb]
      simp only []
      rw [processRes_loop_cnt]
      show (loopAfterCheck B s tr b).2.1.loop_cnt + 1 = tr.loop_cnt + 1
      rw [hfields.2.2.2.1]
    · rw [Tracker.loop_eq_check B s tr now hb]
      simp only []
      show (loopAfterCheck B s tr b).2.1.loop_cnt + 1 = tr.loop_cnt + 1
      rw [hfields.2.2.2.1]
  · intro hcp
    have hbf : b = false := by
      cases b
      · rfl
      · exact absurd (hbiff.mp rfl).1 (by simp [hcp])
    exact ⟨hbf ▸ hb, hnotin hbf⟩
  · intro hcp
    constructor
    · intro hmem
      by_contra hmod
      have hbf : b = false := by
        cases b
        · rfl
        · exact absurd (hbiff.mp rfl).2 hmod
      exact hnotin hbf hmem
    · intro hmod
      have hbt : b = true := hbiff.mpr ⟨Nat.pos_iff_ne_zero.mp hcp, hmod⟩
      exact hin hbt

end TrackerLemmas

section DaemonLemmas

variable {σ : Type}

theorem confTruthy_some {c : String} (h : c ≠ "") :
    confTruthy (some c) = some c := by
  show (if c = "" then none else some c : Option String) = some c
  rw [if_neg h]

theorem runTrackIter_normal (B : Backend σ) (s : σ) (tr : TrackerState)
    (st : DaemonState) (P : ℚ) (counter log_period : Nat) (now E : ℚ)
    (w : Option String) (hconf : confTruthy st.conf = none)
    (hlog : log_period ≠ 0)
    (herr : (Tracker.loop B s tr now (!st.run)).err = none) :
    runTrackIter B s tr st P counter log_period true now E w =
      ⟨(Tracker.loop B s tr now (!st.run)).backend,
        (Tracker.loop B s tr now (!st.run)).tracker,
        applyMid st w, P, counter + 1,
        (if counter % log_period = 0 then [Event.debugLogged "Running."]
          else []) ++ (Tracker.loop B s tr now (!st.run)).events,
        [OutMsg.led "G1" true] ++
          [OutMsg.led "R1" (Tracker.has_tag_errors
              (Tracker.loop B s tr now (!st.run)).tracker),
            OutMsg.led "G1" false],
        some (max 0 (P - E)), true, none⟩ := by
  unfold runTrackIter pymod
  rw [if_neg hlog]
  simp only []
  rw [hconf]
  simp only []
  rw [herr, if_pos trivial]

theorem runTrackIter_reload (B : Backend σ) (s : σ) (tr : TrackerState)
    (st : DaemonState) (P : ℚ) (counter log_period : Nat)
    (listening : Bool) (now E : ℚ) (w : Option String) {c : String}
    {j : Json} {i : Int} (hst : st.conf = some c) (hc : c ≠ "")
    (hj : jsonLoads c = some j) (hi : j.get "interval" = some (Json.num i))
    (hlog : log_period ≠ 0) (herr : (reload_devices B s tr j).err = none) :
    runTrackIter B s tr st P counter log_period listening now E w =
      ⟨(reload_devices B s tr j).backend, (reload_devices B s tr j).tracker,
        { st with conf := none }, (i : ℚ), counter + 1,
        (if counter % log_period = 0 then [Event.debugLogged "Running."]
          else []) ++ (reload_devices B s tr j).events,
        [], none, false, none⟩ := by
  unfold runTrackIter pymod
  rw [if_neg hlog]
  simp only []
  rw [hst, confTruthy_some hc]
  simp only []
  rw [hj]
  simp only []
  rw [hi]
  simp only []
  rw [herr]

theorem runTrackIter_badjson (B : Backend σ) (s : σ) (tr : TrackerState)
    (st : DaemonState) (P : ℚ) (counter log_period : Nat)
    (listening : Bool) (now E : ℚ) (w : Option String) {c : String}
    (hst : st.conf = some c) (hc : c ≠ "") (hj : jsonLoads c = none)
    (hlog : log_period ≠ 0) :
    runTrackIter B s tr st P counter log_period listening now E w =
      ⟨s, tr, st, P, counter + 1,
        (if counter % log_period = 0 then [Event.debugLogged "Running."]
          else []),
        [], none, false, some .jsonDecodeError⟩ := by
  unfold runTrackIter pymod
  rw [if_neg hlog]
  simp only []
  rw [hst, confTruthy_some hc]
  simp only []
  rw [hj]

end DaemonLemmas

section DummyLemmas

theorem forall_not_key_of_pyDictGet_none {α β : Type} [DecidableEq α]
    {d : List (α × β)} {k : α} (h : pyDictGet d k = none) :
    ∀ q ∈ d, ¬ q.1 = k := by
  have h2 := any_eq_false_of_pyDictGet_none h
  rw [List.any_eq_false] at h2
  intro q hq
  simpa using h2 q hq

theorem read_write_self (s : DummyState) (r : DevId)
    (l : List DeviceCoordinates) : (s.write r l).read r = l := by
  unfold DummyState.read DummyState.write
  rw [pyDictGet_pyDictSet_self]
  rfl

theorem touch_read (s : DummyState) (r u : DevId) :
    (s.touch r).read u = s.read u := by
  unfold DummyState.touch DummyState.read
  split
  · rfl
  · next hns =>
      have h1 : pyDictGet s.tag2devices r = none := by
        cases hg : pyDictGet s.tag2devices r with
        | none => rfl
        | some l => rw [hg] at hns; simp at hns
      by_cases hur : u = r
      · subst hur
        rw [pyDictGet_append_single_self
          (forall_not_key_of_pyDictGet_none h1), h1]
        rfl
      · rw [pyDictGet_append_single_ne _ _ _ hur]

theorem touch_of_present {s : DummyState} {r : DevId}
    (h : (pyDictGet s.tag2devices r).isSome) : s.touch r = s := by
  unfold DummyState.touch
  rw [if_pos h]

theorem touch_touch (s : DummyState) (r : DevId) :
    (s.touch r).touch r = s.touch r := by
  apply touch_of_present
  unfold DummyState.touch
  split
  · assumption
  · next hns =>
      have h1 : pyDictGet s.tag2devices r = none := by
        cases hg : pyDictGet s.tag2devices r with
        | none => rfl
        | some l => rw [hg] at hns; simp at hns
      show (pyDictGet (s.tag2devices ++ [(r, [])]) r).isSome
      rw [pyDictGet_append_single_self
        (forall_not_key_of_pyDictGet_none h1)]
      rfl

theorem write_touch (s : DummyState) (r : DevId)
    (l : List DeviceCoordinates) : (s.write r l).touch r = s.write r l := by
  apply touch_of_present
  show (pyDictGet (pyDictSet s.tag2devices r l) r).isSome
  rw [pyDictGet_pyDictSet_self]
  rfl

theorem range_map_getD (l : List Nat) :
    (List.range l.length).map (fun i => l.getD i 0) = l := by
  induction l with
  | nil => rfl
  | cons a t ih =>
      rw [List.length_cons, List.range_succ_eq_map, List.map_cons,
        List.map_map]
      have h : ((fun i => (a :: t).getD i 0) ∘ (fun i => i + 1)) =
          (fun i => t.getD i 0) := by
        funext i
        rfl
      rw [h, ih]
      rfl

theorem gac_fold (r : DevId) :
    ∀ (ids : List Nat) (s0 : DummyState) (d : List (Nat × Pos)),
      s0.touch r = s0 →
      ids.foldl (gacStep dummyBackend r) (s0, d) =
        (s0, ids.foldl
          (fun acc nid => pyDictSet acc nid (lastMatchPos (s0.read r) nid))
          d) := by
  intro ids
  induction ids with
  | nil => intro s0 d _; rfl
  | cons nid rest ih =>
      intro s0 d hfix
      rw [List.foldl_cons, List.foldl_cons]
      have hstep : gacStep dummyBackend r (s0, d) nid =
          (s0, pyDictSet d nid (lastMatchPos (s0.read r) nid)) := by
        show (s0.touch r, pyDictSet d nid (lastMatchPos (s0.read r) nid)) =
          (s0, pyDictSet d nid (lastMatchPos (s0.read r) nid))
        rw [hfix]
      rw [hstep]
      exact ih s0 _ hfix

theorem gac_dummy (s : DummyState) (r : DevId) :
    get_anchors_config dummyBackend s r =
      (s.touch r, dummyReadback (s.read r)) := by
  show ((List.range ((s.read r).length)).map
      (fun i => (((s.touch r).read r).map
        (fun dc => dc.network_id)).getD i 0)).foldl
      (gacStep dummyBackend r) ((s.touch r).touch r, []) = _
  rw [touch_touch]
  have hids : (List.range ((s.read r).length)).map
      (fun i => (((s.touch r).read r).map
        (fun dc => dc.network_id)).getD i 0) =
      (s.read r).map (fun dc => dc.network_id) := by
    rw [touch_read]
    have hlen : (s.read r).length =
        ((s.read r).map (fun dc => dc.network_id)).length := by
      rw [List.length_map]
    rw [hlen]
    exact range_map_getD _
  rw [hids, gac_fold r _ _ [] (touch_touch s r)]
  rw [touch_read]
  rfl

theorem samStep_fold_read (r : DevId) :
    ∀ (A : List (Nat × Pos)) (acc : DummyState × Status × List Event),
      ((A.foldl (samStep dummyBackend r) acc).1).read r =
        acc.1.read r ++ A.map toDC := by
  intro A
  induction A with
  | nil => intro acc; simp
  | cons p rest ih =>
      intro acc
      rw [List.foldl_cons, ih]
      have hstep : ((samStep dummyBackend r acc p).1).read r =
          acc.1.read r ++ [toDC p] := by
        show ((acc.1.write r (acc.1.read r ++ [toDC p])).read r) = _
        rw [read_write_self]
      rw [hstep]
      simp

theorem samStep_fold_status (r : DevId) :
    ∀ (A : List (Nat × Pos)) (acc : DummyState × Status × List Event),
      acc.2.1 = 1 → (A.foldl (samStep dummyBackend r) acc).2.1 = 1 := by
  intro A
  induction A with
  | nil => intro acc h; exact h
  | cons p rest ih =>
      intro acc h
      rw [List.foldl_cons]
      apply ih
      show acc.2.1 &&& 1 = 1
      rw [h]
      rfl

theorem sam_dummy_state (s : DummyState) (A : List (Nat × Pos))
    (fl : Bool) (r : DevId) :
    (set_anchors_manual dummyBackend s A fl r).1 =
      (A.foldl (samStep dummyBackend r)
        (s.write r [], 1, [Event.clearDevicesCalled r])).1 := by
  unfold set_anchors_manual
  simp only []
  split <;> split <;> rfl

theorem sam_dummy_read (s : DummyState) (A : List (Nat × Pos))
    (fl : Bool) (r : DevId) :
    ((set_anchors_manual dummyBackend s A fl r).1).read r = A.map toDC := by
  rw [sam_dummy_state, samStep_fold_read]
  show (s.write r []).read r ++ A.map toDC = A.map toDC
  rw [read_write_self]
  rfl

theorem sam_dummy_success (s : DummyState) (A : List (Nat × Pos))
    (fl : Bool) (r : DevId) :
    (set_anchors_manual dummyBackend s A fl r).2.1 = true := by
  unfold set_anchors_manual
  simp only []
  have hst : (A.foldl (samStep dummyBackend r)
      (s.write r [], 1, [Event.clearDevicesCalled r])).2.1 = 1 :=
    samStep_fold_status r A _ rfl
  split
  · next h4 =>
      show decide ((A.foldl (samStep dummyBackend r)
        (s.write r [], 1, [Event.clearDevicesCalled r])).2.1 &&& 1 =
          POZYX_SUCCESS) = true
      rw [hst]
      rfl
  · show decide ((A.foldl (samStep dummyBackend r)
      (s.write r [], 1, [Event.clearDevicesCalled r])).2.1 =
        POZYX_SUCCESS) = true
    rw [hst]
    rfl

theorem lastMatch_nomatch (nid : Nat) :
    ∀ (devs : List DeviceCoordinates) (acc : Pos),
      nid ∉ devs.map DeviceCoordinates.network_id →
      devs.foldl
        (fun acc dc => if dc.network_id = nid then dc.pos else acc) acc =
        acc := by
  intro devs
  induction devs with
  | nil => intro acc _; rfl
  | cons dc rest ih =>
      intro acc h
      rw [List.foldl_cons]
      have hne : ¬ (dc.network_id = nid) := by
        intro he
        exact h (by rw [← he]; exact List.mem_map.mpr ⟨dc, List.mem_cons_self _ _, rfl⟩)
      rw [if_neg hne]
      exact ih acc (fun hc => h (List.mem_map.mpr
        (by rcases List.mem_map.mp hc with ⟨d2, hd2, he2⟩
            exact ⟨d2, List.mem_cons_of_mem _ hd2, he2⟩)))

theorem lastMatchPos_map_toDC {A : List (Nat × Pos)}
    (hnd : (A.map Prod.fst).Nodup) {k : Nat} {v : Pos}
    (hmem : (k, v) ∈ A) : lastMatchPos (A.map toDC) k = v := by
  unfold lastMatchPos
  induction A with
  | nil => simp at hmem
  | cons p rest ih =>
      rw [List.map_cons, List.nodup_cons] at hnd
      rw [List.map_cons, List.foldl_cons]
      rcases List.mem_cons.mp hmem with he | hm
      · have hk : (toDC p).network_id = k := by rw [← he]; rfl
        rw [if_pos hk]
        have hv : (toDC p).pos = v := by rw [← he]; rfl
        rw [hv]
        have hnok : k ∉ (rest.map toDC).map DeviceCoordinates.network_id := by
          intro hc
          apply hnd.1
          have h2 : (rest.map toDC).map DeviceCoordinates.network_id =
              rest.map Prod.fst := by
            rw [List.map_map]
            rfl
          rw [h2] at hc
          have h3 : p.1 = k := by rw [← he]
          rw [h3]
          exact hc
        exact lastMatch_nomatch k (rest.map toDC) v hnok
      · have hk : ¬ ((toDC p).network_id = k) := by
          intro he2
          apply hnd.1
          have h3 : p.1 = k := he2
          rw [h3]
          exact List.mem_map.mpr ⟨(k, v), hm, rfl⟩
        rw [if_neg hk]
        exact ih hnd.2 hm

theorem foldl_pyDictSet_build (f : Nat → Pos) :
    ∀ (A : List (Nat × Pos)) (acc0 : List (Nat × Pos)),
      (∀ p ∈ A, f p.1 = p.2) → (A.map Prod.fst).Nodup →
      (∀ q ∈ acc0, q.1 ∉ A.map Prod.fst) →
      (A.map Prod.fst).foldl (fun acc k => pyDictSet acc k (f k)) acc0 =
        acc0 ++ A := by
  intro A
  induction A with
  | nil => intro acc0 _ _ _; simp
  | cons p rest ih =>
      intro acc0 hf hnd hdis
      rw [List.map_cons, List.nodup_cons] at hnd
      rw [List.map_cons, List.foldl_cons]
      have hnotin : acc0.any (fun q => q.1 = p.1) = false := by
        rw [List.any_eq_false]
        intro q hq
        have := hdis q hq
        simp only [List.map_cons, List.mem_cons] at this
        simpa using fun he => this (Or.inl he)
      rw [hf p (List.mem_cons_self _ _), pyDictSet_of_not_mem hnotin]
      have hset : p = (p.1, p.2) := rfl
      rw [ih (acc0 ++ [(p.1, p.2)])
        (fun q hq => hf q (List.mem_cons_of_mem _ hq)) hnd.2 ?_]
      · rw [List.append_assoc]
        rw [← hset]
        rfl
      · intro q hq
        rcases List.mem_append.mp hq with h1 | h1
        · intro hc
          have := hdis q h1
          simp only [List.map_cons, List.mem_cons] at this
          exact this (Or.inr hc)
        · simp at h1
          rw [h1]
        -- q = (p.1, p.2): its key p.1 is not in rest's keys by nodup
          exact hnd.1

theorem dummyReadback_map_toDC {A : List (Nat × Pos)}
    (hnd : (A.map Prod.fst).Nodup) : dummyReadback (A.map toDC) = A := by
  unfold dummyReadback
  have hkeys : (A.map toDC).map (fun dc => dc.network_id) =
      A.map Prod.fst := by
    rw [List.map_map]
    rfl
  rw [hkeys]
  have hbuild := foldl_pyDictSet_build
    (fun k => lastMatchPos (A.map toDC) k) A []
    (fun p hp => lastMatchPos_map_toDC hnd (by
      show (p.1, p.2) ∈ A
      exact hp))
    hnd (by simp)
  simpa using hbuild

theorem log_anchor_config_state {σ : Type} (B : Backend σ) (s : σ)
    (t : DevId) :
    (log_anchor_config B s t).1 = (get_anchors_config B s t).1 := by
  unfold log_anchor_config
  simp only []
  split <;> rfl

theorem configure_tag_dummy_noop (s : DummyState) (tr : TrackerState)
    (tag : DevId)
    (h : pyDictEq (dummyReadback (s.read tag)) tr.anchors = true) :
    configure_tag dummyBackend s tr tag =
      (s.touch tag, [Event.configureTagCalled tag]) := by
  unfold configure_tag
  rw [gac_dummy]
  simp only []
  rw [if_pos h]
  rfl

theorem configure_tag_dummy_push (s : DummyState) (tr : TrackerState)
    (tag : DevId)
    (h : ¬ pyDictEq (dummyReadback (s.read tag)) tr.anchors = true) :
    configure_tag dummyBackend s tr tag =
      ((log_anchor_config dummyBackend
        (set_anchors_manual dummyBackend (s.touch tag) tr.anchors true
          tag).1 tag).1,
       Event.configureTagCalled tag ::
        ((set_anchors_manual dummyBackend (s.touch tag) tr.anchors true
          tag).2.2 ++
         (log_anchor_config dummyBackend
          (set_anchors_manual dummyBackend (s.touch tag) tr.anchors true
            tag).1 tag).2)) := by
  unfold configure_tag
  rw [gac_dummy]
  simp only []
  rw [if_neg h, if_pos (sam_dummy_success _ _ _ _)]
  rfl

theorem configure_tag_dummy_read (s : DummyState) (tr : TrackerState)
    (tag : DevId) :
    ((configure_tag dummyBackend s tr tag).1).read tag =
      if pyDictEq (dummyReadback (s.read tag)) tr.anchors then s.read tag
      else tr.anchors.map toDC := by
  by_cases h : pyDictEq (dummyReadback (s.read tag)) tr.anchors = true
  · rw [configure_tag_dummy_noop s tr tag h, if_pos h]
    exact touch_read s tag tag
  · rw [configure_tag_dummy_push s tr tag h, if_neg h]
    show ((log_anchor_config dummyBackend _ tag).1).read tag = _
    rw [log_anchor_config_state, gac_dummy]
    show ((set_anchors_manual dummyBackend (s.touch tag) tr.anchors true
      tag).1.touch tag).read tag = _
    rw [touch_read, sam_dummy_read]

end DummyLemmas

section ClaimTheorems

/-- C2: loop cadence of run_track_loop. In an iteration that runs the
positioning pass (no pending config, listener present, valid log
period, non-2D tracking), the sleep duration passed to time.sleep is
exactly max(0, P - E): equal to P - E when E < P, to 0 when E >= P, and
never negative. -/
theorem c2_loop_cadence {σ : Type} (B : Backend σ) (s : σ)
    (tr : TrackerState) (st : DaemonState) (P : ℚ)
    (counter log_period : Nat) (now E : ℚ) (w : Option String)
    (hconf : st.conf = none) (hlog : log_period ≠ 0)
    (hdim : tr.pos_dim ≠ Dim.dim2) :
    (runTrackIter B s tr st P counter log_period true now E w).sleep =
      some (max 0 (P - E)) ∧
    (E < P → (runTrackIter B s tr st P counter log_period true now E
      w).sleep = some (P - E)) ∧
    (P ≤ E → (runTrackIter B s tr st P counter log_period true now E
      w).sleep = some 0) ∧
    (∀ q : ℚ, (runTrackIter B s tr st P counter log_period true now E
      w).sleep = some q → 0 ≤ q) := by
  have herr := Tracker.loop_no_err B s now (!st.run) hdim
  have hcn : confTruthy st.conf = none := by rw [hconf]; rfl
  rw [runTrackIter_normal B s tr st P counter log_period now E w hcn hlog
    herr]
  refine ⟨rfl, ?_, ?_, ?_⟩
  · intro h
    show some (max 0 (P - E)) = some (P - E)
    rw [max_eq_right (le_of_lt (sub_pos.mpr h))]
  · intro h
    show some (max 0 (P - E)) = some (0 : ℚ)
    rw [max_eq_left (sub_nonpos.mpr h)]
  · intro q hq
    have hmq : max 0 (P - E) = q := Option.some.inj hq
    rw [← hmq]
    exact le_max_left _ _

/-- C3: config hot-reload atomicity. First part: an iteration that finds
the pending-config field set applies the document (new period from its
interval, reload_devices on the registry), clears the field, and skips
the positioning pass and the sleep entirely. Second part: the iteration
observes the pending-config field only at its top: a concurrent write
while the iteration runs (the midConfWrite parameter) changes none of
the iteration's observable components except the final shared state. -/
theorem c3_hot_reload_atomicity :
    (∀ (σ : Type) (B : Backend σ) (s : σ) (tr : TrackerState)
      (st : DaemonState) (P : ℚ) (counter log_period : Nat)
      (listening : Bool) (now E : ℚ) (w : Option String) (c : String)
      (j : Json) (i : Int), st.conf = some c → c ≠ "" →
      jsonLoads c = some j → j.get "interval" = some (Json.num i) →
      log_period ≠ 0 → (reload_devices B s tr j).err = none →
      (runTrackIter B s tr st P counter log_period listening now E
        w).period = (i : ℚ) ∧
      (runTrackIter B s tr st P counter log_period listening now E
        w).tracker = (reload_devices B s tr j).tracker ∧
      (runTrackIter B s tr st P counter log_period listening now E
        w).state.conf = none ∧
      (runTrackIter B s tr st P counter log_period listening now E
        w).ranPositioning = false ∧
      (runTrackIter B s tr st P counter log_period listening now E
        w).sleep = none ∧
      (runTrackIter B s tr st P counter log_period listening now E
        w).err = none) ∧
    (∀ (σ : Type) (B : Backend σ) (s : σ) (tr : TrackerState)
      (st : DaemonState) (P : ℚ) (counter log_period : Nat)
      (listening : Bool) (now E : ℚ) (w1 w2 : Option String),
      obsOf (runTrackIter B s tr st P counter log_period listening now E
        w1) =
      obsOf (runTrackIter B s tr st P counter log_period listening now E
        w2)) := by
  constructor
  · intro σ B s tr st P counter log_period listening now E w c j i h1 h2
      h3 h4 h5 h6
    rw [runTrackIter_reload B s tr st P counter log_period listening now E
      w h1 h2 h3 h4 h5 h6]
    exact ⟨rfl, rfl, rfl, rfl, rfl, rfl⟩
  · intro σ B s tr st P counter log_period listening now E w1 w2
    unfold runTrackIter
    simp only []
    repeat' split
    all_goals rfl

/-- C4 as stated is false: sending on the out channel with no listener
raises ConnectionRefusedError out of update_state, because no handler
wraps the fresh client connection. At the concrete input START with no
listener, update_state mutates the state and then propagates the
error. -/
theorem c4_counterexample :
    update_state "START" ⟨true, false, none⟩ false =
      (⟨true, true, none⟩, Except.error PyErr.connectionRefusedError) := rfl

/-- C4 amended: with no listener on the out channel, every update_state
call (for any non-empty command) raises ConnectionRefusedError past the
send site (the state mutation survives, nothing suppresses the error);
because each send opens a fresh connection, any call made once a
listener is present succeeds. -/
theorem c4_ipc_resilience_amended (cmd : String) (st : DaemonState)
    (h : cmd ≠ "") :
    (update_state cmd st false).2 =
      Except.error PyErr.connectionRefusedError ∧
    ∃ msgs, (update_state cmd st true).2 = Except.ok msgs := by
  obtain ⟨data⟩ := cmd
  cases data with
  | nil => exact absurd rfl h
  | cons c0 cs =>
      constructor
      · rfl
      · exact ⟨_, rfl⟩

/-- C7 as stated is false: the daemon applies any brace-prefixed payload
without validation. The concrete payload consisting of an opening brace
followed by x is stored verbatim in the pending-config field by
update_state, and the next track-loop iteration raises
json.JSONDecodeError, which nothing in the loop catches. -/
theorem c7_counterexample :
    (update_state "\x7bx" ⟨true, false, none⟩ true).1.conf =
      some "\x7bx" ∧
    (runTrackIter dummyBackend ⟨[]⟩ ⟨Dim.dim3, 0, 0, 0, 0, [], [], []⟩
      ⟨true, true, some "\x7bx"⟩ 5 0 1 true 0 0 none).err =
      some PyErr.jsonDecodeError := ⟨rfl, rfl⟩

/-- C7 amended: config validation lives at the submitting webapp, which
rejects a schema-invalid document without publishing it; the daemon does
not validate, and a brace-prefixed payload that fails JSON parsing
raises out of the track-loop iteration (crashing the loop), leaving the
registry, the period and the backend untouched. -/
theorem c7_config_rejection_amended :
    (∀ (doc : Json) (device : String),
      validate_tracking_config doc = false →
      uploadConfig doc device = UploadOutcome.rejected) ∧
    (∀ (σ : Type) (B : Backend σ) (s : σ) (tr : TrackerState)
      (st : DaemonState) (P : ℚ) (counter log_period : Nat)
      (listening : Bool) (now E : ℚ) (w : Option String) (c : String),
      st.conf = some c → c ≠ "" → jsonLoads c = none → log_period ≠ 0 →
      (runTrackIter B s tr st P counter log_period listening now E
        w).err = some PyErr.jsonDecodeError ∧
      (runTrackIter B s tr st P counter log_period listening now E
        w).tracker = tr ∧
      (runTrackIter B s tr st P counter log_period listening now E
        w).period = P ∧
      (runTrackIter B s tr st P counter log_period listening now E
        w).backend = s ∧
      (runTrackIter B s tr st P counter log_period listening now E
        w).ranPositioning = false) := by
  constructor
  · intro doc device h
    unfold uploadConfig
    rw [if_neg (by simp [h])]
  · intro σ B s tr st P counter log_period listening now E w c h1 h2 h3 h4
    rw [runTrackIter_badjson B s tr st P counter log_period listening now E
      w h1 h2 h3 h4]
    exact ⟨rfl, rfl, rfl, rfl, rfl⟩

/-- C8 as stated is false: on a local keyboard interrupt with the
poweroff_on_exit flag set, main's finally block still invokes the
system poweroff action. -/
theorem c8_counterexample :
    (main_finish LoopExit.keyboardInterrupt ⟨true, false, none⟩ true
      true).2 = true := rfl

/-- C8 amended: after the track loop terminates, the system poweroff
action is invoked if and only if the poweroff_on_exit configuration
flag is set, regardless of whether the shutdown came from a remote
POWEROFF command or a local keyboard interrupt. -/
theorem c8_poweroff_gating_amended (k : LoopExit) (st : DaemonState)
    (listening f : Bool) : (main_finish k st listening f).2 = f := by
  cases k <;> rfl

/-- C9: the three documented schema-validation examples. The document
with anchor key 0x681D, one tag and interval 1 validates; the same
document with the anchor key missing its 0x prefix is rejected; the
document with empty anchors, empty tags and interval 0 is rejected. -/
theorem c9_schema_validation :
    validate_tracking_config (Json.obj
      [("anchors", Json.obj
        [("0x681D", Json.arr [Json.num 520, Json.num 0, Json.num 1125])]),
       ("tags", Json.arr [Json.str "0x7625"]),
       ("interval", Json.num 1)]) = true ∧
    validate_tracking_config (Json.obj
      [("anchors", Json.obj
        [("681D", Json.arr [Json.num 520, Json.num 0, Json.num 1125])]),
       ("tags", Json.arr [Json.str "0x7625"]),
       ("interval", Json.num 1)]) = false ∧
    validate_tracking_config (Json.obj
      [("anchors", Json.obj []),
       ("tags", Json.arr []),
       ("interval", Json.num 0)]) = false := by
  refine ⟨?_, ?_, ?_⟩ <;> decide

/-- Events already accumulated survive configureAll. -/
theorem configureAll_mono {σ : Type} (B : Backend σ) (tr : TrackerState) :
    ∀ (l : List DevId) (s : σ) (evs : List Event) (e : Event),
      e ∈ evs → e ∈ (configureAll B tr l s evs).2 := by
  intro l
  induction l with
  | nil => intro s evs e he; exact he
  | cons u rest ih =>
      intro s evs e he
      exact ih _ _ e (List.mem_append_left _ he)

/-- configureAll emits the configure-call marker for every tag it
visits. -/
theorem configureAll_mem {σ : Type} (B : Backend σ) (tr : TrackerState) :
    ∀ (l : List DevId) (s : σ) (evs : List Event) (t : DevId), t ∈ l →
      Event.configureTagCalled t ∈ (configureAll B tr l s evs).2 := by
  intro l
  induction l with
  | nil => intro s evs t ht; simp at ht
  | cons u rest ih =>
      intro s evs t ht
      rcases List.mem_cons.mp ht with he | hm
      · subst he
        exact configureAll_mono B tr rest _ _ _
          (List.mem_append_right _
            (configureTagCalled_mem_configure_tag B s tr t))
      · exact ih _ _ t hm

/-- C5 as stated is false: from a state whose configuration already
matches the registry, two consecutive configure_tag calls perform zero
backend set-anchors sequences, not exactly one. Concretely, with an
empty anchors registry and a fresh dummy backend, the two calls together
issue no clearDevices call. -/
theorem c5_counterexample :
    ((configure_tag dummyBackend ⟨[]⟩ ⟨Dim.dim3, 0, 0, 0, 0, [], [], []⟩
        (some 2)).2 ++
      (configure_tag dummyBackend
        (configure_tag dummyBackend ⟨[]⟩
          ⟨Dim.dim3, 0, 0, 0, 0, [], [], []⟩ (some 2)).1
        ⟨Dim.dim3, 0, 0, 0, 0, [], [], []⟩ (some 2)).2).count
      (Event.clearDevicesCalled (some 2)) = 0 := by decide

/-- C5 (amended): after one configure_tag, the tag's read-back anchor
configuration equals the registry (as Python dicts), so the second of
two consecutive calls with an unchanged registry performs no set-anchors
sequence (its only event is the configure-call marker); the first call
performs one set-anchors sequence exactly when the prior configuration
differed from the registry, so the two calls perform at most one in
total. -/
theorem c5_idempotent_reconfiguration (s : DummyState) (tr : TrackerState)
    (tag : DevId) (hnd : (tr.anchors.map Prod.fst).Nodup) :
    pyDictEq (get_anchors_config dummyBackend
      (configure_tag dummyBackend s tr tag).1 tag).2 tr.anchors = true ∧
    (configure_tag dummyBackend (configure_tag dummyBackend s tr tag).1
      tr tag).2 = [Event.configureTagCalled tag] ∧
    (configure_tag dummyBackend s tr tag).2.count
        (Event.clearDevicesCalled tag) =
      (if pyDictEq (dummyReadback (s.read tag)) tr.anchors then 0
        else 1) ∧
    ((configure_tag dummyBackend s tr tag).2 ++
      (configure_tag dummyBackend (configure_tag dummyBackend s tr tag).1
        tr tag).2).count (Event.clearDevicesCalled tag) ≤ 1 := by
  have hread : pyDictEq (dummyReadback
      (((configure_tag dummyBackend s tr tag).1).read tag))
      tr.anchors = true := by
    rw [configure_tag_dummy_read]
    by_cases h : pyDictEq (dummyReadback (s.read tag)) tr.anchors = true
    · rw [if_pos h]
      exact h
    · rw [if_neg h, dummyReadback_map_toDC hnd]
      exact pyDictEq_self hnd
  have h2 : (configure_tag dummyBackend (configure_tag dummyBackend s tr
      tag).1 tr tag).2 = [Event.configureTagCalled tag] := by
    rw [configure_tag_dummy_noop _ tr tag hread]
  have hcnt2 : ([Event.configureTagCalled tag]).count
      (Event.clearDevicesCalled tag) = 0 := by
    rw [List.count_eq_zero]
    simp
  have hcount1 : (configure_tag dummyBackend s tr tag).2.count
      (Event.clearDevicesCalled tag) =
      (if pyDictEq (dummyReadback (s.read tag)) tr.anchors then 0
        else 1) := by
    by_cases h : pyDictEq (dummyReadback (s.read tag)) tr.anchors = true
    · rw [configure_tag_dummy_noop s tr tag h, if_pos h]
      exact hcnt2
    · rw [configure_tag_dummy_push s tr tag h, if_neg h,
        set_anchors_manual_events]
      have hlogs : ((log_anchor_config dummyBackend
          (set_anchors_manual dummyBackend (s.touch tag) tr.anchors true
            tag).1 tag).2).count (Event.clearDevicesCalled tag) = 0 := by
        rw [List.count_eq_zero]
        intro hc
        rcases log_anchor_config_events dummyBackend _ tag _ hc with ⟨m, hm⟩
        simp at hm
      have hadds : (tr.anchors.map (fun p =>
          Event.addDeviceCalled tag ⟨p.1, 1, p.2⟩)).count
          (Event.clearDevicesCalled tag) = 0 := by
        rw [List.count_eq_zero]
        intro hc
        rcases List.mem_map.mp hc with ⟨p, _, hp⟩
        simp at hp
      rw [List.count_cons, List.count_append, List.count_cons, hlogs,
        hadds]
      simp
  refine ⟨?_, h2, hcount1, ?_⟩
  · rw [gac_dummy]
    exact hread
  · rw [List.count_append, hcount1, h2, hcnt2]
    split <;> omega

/-- C6 as stated is false: reload_devices does not push anchors
regardless of prior state; configure_tag skips the push when the
read-back configuration already matches. Concretely, constructing a
Tracker from the sample profile pushes once for its tag, but reloading
the identical profile immediately afterwards performs zero set-anchors
sequences although the tag is in the new registry. -/
theorem c6_counterexample :
    (some 2) ∈ (reload_devices dummyBackend
      (Tracker.init dummyBackend ⟨[]⟩ Dim.dim3 0 0 0
        sampleProfile).backend
      (Tracker.init dummyBackend ⟨[]⟩ Dim.dim3 0 0 0
        sampleProfile).tracker
      sampleProfile).tracker.tags ∧
    ((Tracker.init dummyBackend ⟨[]⟩ Dim.dim3 0 0 0
      sampleProfile).events).count
      (Event.clearDevicesCalled (some 2)) = 1 ∧
    ((reload_devices dummyBackend
      (Tracker.init dummyBackend ⟨[]⟩ Dim.dim3 0 0 0
        sampleProfile).backend
      (Tracker.init dummyBackend ⟨[]⟩ Dim.dim3 0 0 0
        sampleProfile).tracker
      sampleProfile).events).count
      (Event.clearDevicesCalled (some 2)) = 0 := by decide

/-- C6 (amended): every successful reload_devices call (including the
one the constructor performs) runs configure_tag for every tag of the
new registry and leaves the needs-reconfiguration set empty; the push
inside configure_tag happens only when the tag's read-back configuration
differs from the registry (on the dummy backend, a matching
configuration produces no clearDevices call). -/
theorem c6_forced_reconfiguration_amended {σ : Type} (B : Backend σ)
    (s : σ) (tr : TrackerState) (j : Json)
    (herr : (reload_devices B s tr j).err = none) :
    (∀ t ∈ (reload_devices B s tr j).tracker.tags,
      Event.configureTagCalled t ∈ (reload_devices B s tr j).events) ∧
    (reload_devices B s tr j).tracker.tags_to_reconfigure = [] ∧
    (∀ (s2 : DummyState) (tr2 : TrackerState) (t : DevId),
      pyDictEq (dummyReadback (DummyState.read s2 t)) tr2.anchors = true →
      Event.clearDevicesCalled t ∉
        (configure_tag dummyBackend s2 tr2 t).2) := by
  have hthird : ∀ (s2 : DummyState) (tr2 : TrackerState) (t : DevId),
      pyDictEq (dummyReadback (DummyState.read s2 t)) tr2.anchors = true →
      Event.clearDevicesCalled t ∉
        (configure_tag dummyBackend s2 tr2 t).2 := by
    intro s2 tr2 t h hc
    rw [configure_tag_dummy_noop s2 tr2 t h] at hc
    simp at hc
  unfold reload_devices at herr ⊢
  cases hjt : j.get "tags" with
  | none =>
      rw [hjt] at herr
      simp at herr
  | some jt =>
      rw [hjt] at herr
      simp only [] at herr ⊢
      cases hpt : parseTags jt with
      | error e =>
          rw [hpt] at herr
          simp at herr
      | ok tags =>
          rw [hpt] at herr
          simp only [] at herr ⊢
          cases hja : j.get "anchors" with
          | none =>
              rw [hja] at herr
              simp at herr
          | some ja =>
              rw [hja] at herr
              simp only [] at herr ⊢
              cases hpa : parseAnchors ja with
              | error e =>
                  rw [hpa] at herr
                  simp at herr
              | ok anchors =>
                  rw [hpa] at herr
                  simp only [] at herr ⊢
                  refine ⟨?_, by trivial, hthird⟩
                  intro t ht
                  exact configureAll_mem B _ _ _ _ t ht

/-- Witness for C1 at a concrete input: one tag, queued for
reconfiguration, on the dummy backend; its localize succeeds and the
loop reconfigures it. -/
theorem c1_self_healing_witness :
    Event.localized (some 2) (LocRes.ok 0 [100, 200, 300]) ∈
      (Tracker.loop dummyBackend ⟨[]⟩
        ⟨Dim.dim3, 0, 0, 0, 0, [some 2], [(1, (1, 2, 3))], [some 2]⟩
        0 false).events ∧
    Event.configureTagCalled (some 2) ∈
      (Tracker.loop dummyBackend ⟨[]⟩
        ⟨Dim.dim3, 0, 0, 0, 0, [some 2], [(1, (1, 2, 3))], [some 2]⟩
        0 false).events ∧
    (some 2) ∉ (Tracker.loop dummyBackend ⟨[]⟩
      ⟨Dim.dim3, 0, 0, 0, 0, [some 2], [(1, (1, 2, 3))], [some 2]⟩
      0 false).tracker.tags_to_reconfigure ∧
    ∀ d, Event.telemetry (some 2) d ∉
      (Tracker.loop dummyBackend ⟨[]⟩
        ⟨Dim.dim3, 0, 0, 0, 0, [some 2], [(1, (1, 2, 3))], [some 2]⟩
        0 false).events :=
  ⟨by decide,
    c1_self_healing dummyBackend ⟨[]⟩
      ⟨Dim.dim3, 0, 0, 0, 0, [some 2], [(1, (1, 2, 3))], [some 2]⟩
      0 (some 2) (LocRes.ok 0 [100, 200, 300])
      (by decide) (by decide) (by decide) (by decide) rfl⟩

/-- Witness for C10 at a concrete input: with check period 2 and counter
0, the loop runs the check. -/
theorem c10_periodic_check_guard_witness :
    (0 : Nat) % 2 = 0 ∧
    Event.checkRun ∈ (Tracker.loop dummyBackend ⟨[]⟩
      ⟨Dim.dim3, 0, 2, 0, 0, [], [], []⟩ 0 true).events :=
  ⟨by decide,
    ((c10_periodic_check_guard dummyBackend ⟨[]⟩
      ⟨Dim.dim3, 0, 2, 0, 0, [], [], []⟩ 0 true).2.2 (by decide)).mpr
      (by decide)⟩

/-- Witness for C2 at a concrete input: period 5, elapsed 2, so the
iteration sleeps exactly 3 seconds. -/
theorem c2_loop_cadence_witness :
    (2 : ℚ) < 5 ∧
    (runTrackIter dummyBackend ⟨[]⟩ ⟨Dim.dim3, 0, 0, 0, 0, [], [], []⟩
      ⟨true, true, none⟩ 5 0 1 true 0 2 none).sleep =
      some ((5 : ℚ) - 2) :=
  ⟨by norm_num,
    (c2_loop_cadence dummyBackend ⟨[]⟩ ⟨Dim.dim3, 0, 0, 0, 0, [], [], []⟩
      ⟨true, true, none⟩ 5 0 1 0 2 none rfl (by decide) (by decide)).2.1
      (by norm_num)⟩

/-- Witness for C3 at a concrete input: the sample profile document is
pending, and the iteration adopts the interval 5 as the new period;
moreover a concrete mid-iteration write does not change the observable
components of an iteration. -/
theorem c3_hot_reload_atomicity_witness :
    jsonLoads sampleProfileStr = some sampleProfile ∧
    (runTrackIter dummyBackend ⟨[]⟩ ⟨Dim.dim3, 0, 0, 0, 0, [], [], []⟩
      ⟨true, true, some sampleProfileStr⟩ 9 0 1 true 0 0 none).period =
      ((5 : Int) : ℚ) ∧
    obsOf (runTrackIter dummyBackend ⟨[]⟩
      ⟨Dim.dim3, 0, 0, 0, 0, [], [], []⟩ ⟨true, true, none⟩ 9 0 1 true 0 0
      (some "x")) =
    obsOf (runTrackIter dummyBackend ⟨[]⟩
      ⟨Dim.dim3, 0, 0, 0, 0, [], [], []⟩ ⟨true, true, none⟩ 9 0 1 true 0 0
      none) :=
  ⟨rfl,
    (c3_hot_reload_atomicity.1 DummyState dummyBackend ⟨[]⟩
      ⟨Dim.dim3, 0, 0, 0, 0, [], [], []⟩
      ⟨true, true, some sampleProfileStr⟩ 9 0 1 true 0 0 none
      sampleProfileStr sampleProfile 5 rfl (by decide) rfl rfl (by decide)
      rfl).1,
    c3_hot_reload_atomicity.2 DummyState dummyBackend ⟨[]⟩
      ⟨Dim.dim3, 0, 0, 0, 0, [], [], []⟩ ⟨true, true, none⟩ 9 0 1 true 0 0
      (some "x") none⟩

/-- Witness for the amended C4 at a concrete input: the START command
with no listener raises, with a listener it succeeds. -/
theorem c4_ipc_resilience_amended_witness :
    "START" ≠ "" ∧
    (update_state "START" ⟨true, false, none⟩ false).2 =
      Except.error PyErr.connectionRefusedError :=
  ⟨by decide,
    (c4_ipc_resilience_amended "START" ⟨true, false, none⟩ (by decide)).1⟩

/-- Witness for the amended C5 at a concrete input: one anchor, one tag,
fresh dummy backend; the second configure_tag call emits only the
configure-call marker. -/
theorem c5_idempotent_reconfiguration_witness :
    ((([(1, ((1 : Int), 2, 3))] : List (Nat × Pos)).map Prod.fst).Nodup) ∧
    (configure_tag dummyBackend
      (configure_tag dummyBackend ⟨[]⟩
        ⟨Dim.dim3, 0, 0, 0, 0, [some 2], [(1, (1, 2, 3))], []⟩ (some 2)).1
      ⟨Dim.dim3, 0, 0, 0, 0, [some 2], [(1, (1, 2, 3))], []⟩ (some 2)).2 =
      [Event.configureTagCalled (some 2)] :=
  ⟨by decide,
    (c5_idempotent_reconfiguration ⟨[]⟩
      ⟨Dim.dim3, 0, 0, 0, 0, [some 2], [(1, (1, 2, 3))], []⟩ (some 2)
      (by decide)).2.1⟩

/-- Witness for the amended C6 at a concrete input: reloading the sample
profile succeeds and leaves the reconfiguration set empty. -/
theorem c6_forced_reconfiguration_amended_witness :
    (reload_devices dummyBackend ⟨[]⟩
      ⟨Dim.dim3, 0, 0, 0, 0, [], [], []⟩ sampleProfile).err = none ∧
    (reload_devices dummyBackend ⟨[]⟩
      ⟨Dim.dim3, 0, 0, 0, 0, [], [], []⟩
      sampleProfile).tracker.tags_to_reconfigure = [] :=
  ⟨rfl,
    (c6_forced_reconfiguration_amended dummyBackend ⟨[]⟩
      ⟨Dim.dim3, 0, 0, 0, 0, [], [], []⟩ sampleProfile rfl).2.1⟩

/-- Witness for the amended C7 at concrete inputs: the all-empty
document fails validation and is rejected by the upload handler, and a
pending unparsable payload makes the iteration raise the JSON decode
error. -/
theorem c7_config_rejection_amended_witness :
    validate_tracking_config (Json.obj [("anchors", Json.obj []),
      ("tags", Json.arr []), ("interval", Json.num 0)]) = false ∧
    uploadConfig (Json.obj [("anchors", Json.obj []),
      ("tags", Json.arr []), ("interval", Json.num 0)]) "dev" =
      UploadOutcome.rejected ∧
    (runTrackIter dummyBackend ⟨[]⟩ ⟨Dim.dim3, 0, 0, 0, 0, [], [], []⟩
      ⟨true, true, some "\x7bx"⟩ 5 0 1 true 0 0 none).err =
      some PyErr.jsonDecodeError :=
  ⟨by decide,
    c7_config_rejection_amended.1 (Json.obj [("anchors", Json.obj []),
      ("tags", Json.arr []), ("interval", Json.num 0)]) "dev" (by decide),
    (c7_config_rejection_amended.2 DummyState dummyBackend ⟨[]⟩
      ⟨Dim.dim3, 0, 0, 0, 0, [], [], []⟩ ⟨true, true, some "\x7bx"⟩ 5 0 1
      true 0 0 none "\x7bx" rfl (by decide) rfl (by decide)).1⟩

end ClaimTheorems

end Trk
